import Mathlib

/-!
# examples/jsc/main.c : a TCP server bridged to a JavaScriptCore script

Shallow embedding of `examples/jsc/main.c`.

* C globals (`server_socket`, `sockets`, `sockets_len`) are the fields of `State`; the
  state also carries a log of the observable calls made so far.
* A function that may call `exit(1)` returns an `Outcome`.
* The operating system and the script are inputs: `Env` gives the result of every
  `close`, `write` and entry point call as a function of the log so far; the results of
  `select`, `accept` and `recv` are passed to the functions that call them.
* C `int` values are `Int`, array indices and lengths are `Nat`; `char` is the signed
  8-bit type of the platforms that ship `JavaScriptCore/JavaScriptCore.h`.
* `printf` output is not modelled.
-/

namespace JscServer

/-! ## Bytes and C characters -/

/-- Conversion of an `int` to `char`: the value is reduced modulo 2^8 into -128..127. -/
def int_to_char (n : Int) : Int := (n + 128) % 256 - 128

/-- The `char` holding the byte `b` (bytes from 128 on are negative characters). -/
def char_of_byte (b : Nat) : Int := if b < 128 then (b : Int) else (b : Int) - 256

/-- The byte (0..255) stored in a `char`. -/
def byte_of_char (c : Int) : Nat := (c % 256).toNat

/-- Storing a number into an element of a `Uint8Array`: reduction modulo 2^8 into 0..255. -/
def toUint8 (x : Int) : Nat := (x % 256).toNat

/-! ## JavaScript values and the JavaScriptCore C API -/

/-- Objects that are neither an `Array` nor a `Uint8Array`, by `JSTypedArrayType`. -/
inductive ObjectKind where
  | int8Array | int16Array | int32Array | uint8ClampedArray | uint16Array | uint32Array
  | float32Array | float64Array | arrayBuffer
  | plain
  deriving DecidableEq, Repr

/-- The `JSTypedArrayType` code of an object that is not a `Uint8Array`
(`kJSTypedArrayTypeUint8Array` is 3, `kJSTypedArrayTypeNone` is 10). -/
def ObjectKind.code : ObjectKind → Nat
  | .int8Array => 0
  | .int16Array => 1
  | .int32Array => 2
  | .uint8ClampedArray => 4
  | .uint16Array => 5
  | .uint32Array => 6
  | .float32Array => 7
  | .float64Array => 8
  | .arrayBuffer => 9
  | .plain => 10

/-- JavaScript values as far as `main.c` inspects them. A number is represented by the
`int` that the C conversion `(int)` of its double yields; an array is dense; `object`
covers functions, plain objects and the wrapper objects of primitives. -/
inductive JSValue where
  | undefined
  | null
  | boolean (b : Bool)
  | number (n : Int)
  | string (s : String)
  | array (elems : List JSValue)
  | uint8Array (bytes : List Nat)
  | object (kind : ObjectKind)

/-- A `JSValueRef` or `JSObjectRef`: `none` is the C `NULL` pointer. -/
abbrev JSRef := Option JSValue

/-- The API reads a `NULL` reference as the JavaScript value `null`. -/
def toJS (r : JSRef) : JSValue := r.getD JSValue.null

/-- `JSValueToObject` with a `NULL` exception pointer: `undefined` and `null` cannot be
converted and give `NULL`; a primitive gives its wrapper object; an object gives itself. -/
def JSValueToObject (r : JSRef) : JSRef :=
  match toJS r with
  | .undefined => none
  | .null => none
  | .boolean _ => some (.object .plain)
  | .number _ => some (.object .plain)
  | .string _ => some (.object .plain)
  | v => some v

/-- `JSValueIsArray`. -/
def JSValueIsArray (r : JSRef) : Bool :=
  match toJS r with
  | .array _ => true
  | _ => false

/-- `JSValueIsNumber`. -/
def JSValueIsNumber (r : JSRef) : Bool :=
  match toJS r with
  | .number _ => true
  | _ => false

/-- `JSValueIsNull`: true of the value `null`, hence also of a `NULL` reference. -/
def JSValueIsNull (r : JSRef) : Bool :=
  match toJS r with
  | .null => true
  | _ => false

/-- `JSValueToNumber` followed by the C conversion `(int)`. -/
def JSValueToNumber (r : JSRef) : Int :=
  match toJS r with
  | .number n => n
  | _ => 0

/-- `JSValueMakeNumber`. -/
def JSValueMakeNumber (n : Int) : JSRef := some (.number n)

/-- `JSObjectGetPropertyAtIndex`: the element at `index`, `undefined` when there is none. -/
def JSObjectGetPropertyAtIndex (obj : JSRef) (index : Nat) : JSRef :=
  match toJS obj with
  | .array elems => some (elems.getD index .undefined)
  | .uint8Array bytes => if index < bytes.length then some (.number (bytes.getD index 0)) else some .undefined
  | _ => some .undefined

/-- `JSObjectSetPropertyAtIndex` on a `Uint8Array`: stores the number modulo 2^8. -/
def JSObjectSetPropertyAtIndex (obj : JSRef) (index : Nat) (value : JSRef) : JSRef :=
  match toJS obj with
  | .uint8Array bytes => some (.uint8Array (bytes.set index (toUint8 (JSValueToNumber value))))
  | _ => obj

/-- `JSObjectMakeTypedArray` for `kJSTypedArrayTypeUint8Array`: `len` zero bytes. -/
def JSObjectMakeTypedArray (len : Nat) : JSRef := some (.uint8Array (List.replicate len 0))

/-- `JSValueGetTypedArrayType`. -/
def JSValueGetTypedArrayType (r : JSRef) : Nat :=
  match toJS r with
  | .uint8Array _ => 3
  | .object kind => kind.code
  | _ => 10

/-- `JSObjectGetTypedArrayLength`. -/
def JSObjectGetTypedArrayLength (r : JSRef) : Nat :=
  match toJS r with
  | .uint8Array bytes => bytes.length
  | _ => 0

/-- Contents of a `Uint8Array` reference (empty for anything else). -/
def JSRef.bytes (r : JSRef) : List Nat :=
  match toJS r with
  | .uint8Array bytes => bytes
  | _ => []

/-- Result of `JSObjectCallAsFunction`: a value, or an exception stored in `exception`. -/
inductive JSResult where
  | returned (v : JSValue)
  | threw (exc : JSValue)

/-! ## State, log and outcomes -/

/-- Observable calls, in the order they are made. -/
inductive Event where
  | call_js (fd : Int) (buffer : List Nat)
  | remove_socket (fd : Int)
  | write_socket (fd : Int) (buffer : List Int)
  | close (fd : Int)
  deriving DecidableEq, Repr

/-- The messages passed to `throw`, and the exit through `throw_js`. -/
inductive Fatal where
  | max_sockets
  | close_failed
  | socket_failed
  | bind_failed
  | listen_failed
  | select_failed
  | accept_failed
  | recv_failed
  | send_failed
  | js_exception
  | not_array
  | element_not_array
  | fd_not_number
  | data_invalid
  deriving DecidableEq, Repr

/-- The globals of `main.c` and the log of calls made so far (oldest first). -/
structure State where
  server_socket : Int
  sockets : Nat → Int
  sockets_len : Nat
  log : List Event

/-- The environment: whether `close(fd)` and `write(fd, buffer, len)` succeed, and what
the script entry point does when called with `(fd, buffer)`, given the calls so far. -/
structure Env where
  close_ok : List Event → Int → Bool
  write_ok : List Event → Int → List Int → Bool
  script : List Event → Int → List Nat → JSResult

/-- How a function ends: it returns `val`, the process exits with status 1, or the
process has not come that far when the given environment responses, or the steps allowed
to a loop, are used up (it is blocked in `select`). -/
inductive Outcome (α : Type) where
  | ok (val : α) (s : State)
  | exit (err : Fatal) (s : State)
  | blocked (s : State)

/-- State at the end. -/
def Outcome.state {α : Type} : Outcome α → State
  | .ok _ s => s
  | .exit _ s => s
  | .blocked s => s

/-- The ids in `sockets[0..sockets_len)`, the Connection Set. -/
def live (s : State) : List Int := (List.range s.sockets_len).map s.sockets

/-- Appends an event to the log. -/
def State.emit (s : State) (e : Event) : State := { s with log := s.log ++ [e] }

/-- `throw`: closes `sockets[0..sockets_len)` in order and exits with status 1. -/
def throw {α : Type} (msg : Fatal) (s : State) : Outcome α :=
  .exit msg { s with log := s.log ++ (live s).map Event.close }

/-- `throw_js`: prints the JavaScript exception and exits with status 1. -/
def throw_js {α : Type} (s : State) : Outcome α := .exit .js_exception s

/-! ## Connection Set -/

/-- `add_socket`. -/
def add_socket (fd : Int) (s : State) : Outcome Unit :=
  if s.sockets_len ≥ 1024 then throw .max_sockets s
  else .ok () { s with sockets := Function.update s.sockets s.sockets_len fd, sockets_len := s.sockets_len + 1 }

/-- The `for` loop of `remove_socket` from index `i` on. `sockets_len` never grows in the
loop, so `n = sockets_len - i` iterations always reach the exit test `i < sockets_len`
(`remove_loop_fuel`). -/
def remove_loop (fd : Int) : Nat → Nat → State → State
  | 0, _, s => s
  | n + 1, i, s =>
    if i < s.sockets_len then
      if s.sockets i ≠ fd then remove_loop fd n (i + 1) s
      else remove_loop fd n (i + 1)
        { s with sockets := Function.update s.sockets i (s.sockets (s.sockets_len - 1)), sockets_len := s.sockets_len - 1 }
    else s

/-- `remove_socket`. -/
def remove_socket (env : Env) (fd : Int) (s : State) : Outcome Unit :=
  let s1 := s.emit (.remove_socket fd)
  if env.close_ok s.log fd = false then throw .close_failed s1
  else .ok () (remove_loop fd s1.sockets_len 0 s1)

/-! ## TCP server -/

/-- The globals before `main` runs: zero-initialised, nothing logged. -/
def start : State := { server_socket := 0, sockets := fun _ => 0, sockets_len := 0, log := [] }

/-- `init_server`, given what `socket`, `bind` and `listen` return. -/
def init_server (socket_ret bind_ret listen_ret : Int) (s : State) : Outcome Unit :=
  let s1 : State := { s with server_socket := socket_ret }
  if s1.server_socket < 0 then throw .socket_failed s1
  else if bind_ret < 0 then throw .bind_failed s1
  else if listen_ret < 0 then throw .listen_failed s1
  else .ok () { s1 with sockets := Function.update s1.sockets 0 s1.server_socket, sockets_len := 1 }

/-- One pass of the `while (1)` loop of `get_socket` as the environment decides it: what
`select` returns, which descriptors are readable, and what `accept` returns if called. -/
structure SelectRound where
  select_ret : Int
  readable : Nat → Bool
  accept_ret : Int

/-- The value of `maxfd` after the first `for` loop of `get_socket`. -/
def maxfd (s : State) : Int :=
  (List.range s.sockets_len).foldl (fun m i => if s.sockets i ≥ m then s.sockets i + 1 else m) 0

/-- The set `list` after `select`: descriptor `i` is set iff it was put in by `FD_SET`
(it is one of `sockets[0..sockets_len)`) and it is readable. -/
def fd_list (s : State) (r : SelectRound) (i : Nat) : Bool :=
  decide ((i : Int) ∈ live s) && r.readable i

/-- The second `for` loop of `get_socket` from index `i` on, `n = maxfd - i` indices
remaining. `some fd` is `return fd`; `none` is leaving the loop (by `break` after an
accept, or at `i = maxfd`) to go back to `select`. -/
def scan_loop (s : State) (list : Nat → Bool) (accept_ret : Int) : Nat → Nat → Outcome (Option Int)
  | 0, _ => .ok none s
  | n + 1, i =>
    if !list i then scan_loop s list accept_ret n (i + 1)
    else if (i : Int) = s.server_socket then
      if accept_ret < 0 then throw .accept_failed s
      else
        match add_socket accept_ret s with
        | .ok _ s' => .ok none s'
        | .exit e s' => .exit e s'
        | .blocked s' => .blocked s'
    else .ok (some (i : Int)) s

/-- One pass of the `while (1)` loop of `get_socket`. -/
def get_socket_round (s : State) (r : SelectRound) : Outcome (Option Int) :=
  if r.select_ret < 0 then throw .select_failed s
  else scan_loop s (fd_list s r) r.accept_ret (maxfd s).toNat 0

/-- `get_socket`, given the successive responses of the environment; when they are used
up the process is blocked in `select`. -/
def get_socket (s : State) : List SelectRound → Outcome Int
  | [] => .blocked s
  | r :: rest =>
    match get_socket_round s r with
    | .ok (some fd) s' => .ok fd s'
    | .ok none s' => get_socket s' rest
    | .exit e s' => .exit e s'
    | .blocked s' => .blocked s'

/-- `read_socket`, given what `recv` returns; the value returned is `len`. -/
def read_socket (env : Env) (fd : Int) (recv_ret : Int) (s : State) : Outcome Int :=
  if recv_ret < 0 then throw .recv_failed s
  else if recv_ret = 0 then
    match remove_socket env fd s with
    | .ok _ s' => .ok recv_ret s'
    | .exit e s' => .exit e s'
    | .blocked s' => .blocked s'
  else .ok recv_ret s

/-- `write_socket`: sends the first `len` characters of `buffer`. -/
def write_socket (env : Env) (fd : Int) (buffer : List Int) (len : Nat) (s : State) : Outcome Unit :=
  let s1 := s.emit (.write_socket fd (buffer.take len))
  if env.write_ok s.log fd (buffer.take len) = false then throw .send_failed s1
  else .ok () s1

/-! ## Script bridge -/

/-- First loop of `write_to_js`: a new `Uint8Array` of `len` elements, element `i` set to
the number `data[i]`. -/
def make_buffer (data : List Int) (len : Nat) : JSRef :=
  (List.range len).foldl
    (fun buffer i => JSObjectSetPropertyAtIndex buffer i (JSValueMakeNumber (data.getD i 0)))
    (JSObjectMakeTypedArray len)

/-- Copy loop of `write_to_js`: `buf[i] = (int)` of element `i` of `js_buf`, for
`i < len2`. -/
def copy_buffer (js_buf : JSRef) : List Int :=
  (List.range (JSObjectGetTypedArrayLength js_buf)).map
    (fun i => int_to_char (JSValueToNumber (JSObjectGetPropertyAtIndex js_buf i)))

/-- Body of the `while` loop of `write_to_js` for the element `value` (not `NULL`), up to
`index++`. -/
def action_step (env : Env) (value : JSRef) (s : State) : Outcome Unit :=
  if !JSValueIsArray value then throw .element_not_array s
  else
    let fd2_value := JSObjectGetPropertyAtIndex value 0
    if !JSValueIsNumber fd2_value then throw .fd_not_number s
    else
      let fd2 := JSValueToNumber fd2_value
      let js_buf := JSValueToObject (JSObjectGetPropertyAtIndex value 1)
      if JSValueIsNull js_buf then remove_socket env fd2 s
      else if JSValueGetTypedArrayType js_buf = 3 then
        write_socket env fd2 (copy_buffer js_buf) (JSObjectGetTypedArrayLength js_buf) s
      else throw .data_invalid s

/-- The `while` loop of `write_to_js` from `index` on, `n` steps allowed. The loop ends
when `JSValueToObject` of the element read is `NULL`, which is the case at the latest at
`index = length`; `write_to_js` allows `length + 1` steps, so `blocked` (out of steps)
is never its result (`actions_loop_eq`). -/
def actions_loop (env : Env) (arr : JSRef) : Nat → Nat → State → Outcome Unit
  | 0, _, s => .blocked s
  | n + 1, index, s =>
    match JSValueToObject (JSObjectGetPropertyAtIndex arr index) with
    | none => .ok () s
    | some v =>
      match action_step env (some v) s with
      | .ok _ s' => actions_loop env arr n (index + 1) s'
      | .exit e s' => .exit e s'
      | .blocked s' => .blocked s'

/-- Number of elements of an array reference. -/
def JSRef.length (r : JSRef) : Nat :=
  match toJS r with
  | .array elems => elems.length
  | _ => 0

/-- `write_to_js(fd, data, len)`. -/
def write_to_js (env : Env) (fd : Int) (data : List Int) (len : Nat) (s : State) : Outcome Unit :=
  let buffer := make_buffer data len
  let s1 := s.emit (.call_js fd buffer.bytes)
  match env.script s.log fd buffer.bytes with
  | .threw _ => throw_js s1
  | .returned v =>
    let arr := JSValueToObject (some v)
    if !JSValueIsArray arr then throw .not_array s1
    else actions_loop env arr (arr.length + 1) 0 s1

/-- What the environment supplies to one pass of the loop of `main`: the responses to
`get_socket`, the value `recv` returns and the contents of `buffer` after `recv`. -/
structure Input where
  rounds : List SelectRound
  recv_ret : Int
  buffer : List Int

/-- Body of the `while (1)` loop of `main`. -/
def main_iteration (env : Env) (inp : Input) (s : State) : Outcome Unit :=
  match get_socket s inp.rounds with
  | .ok fd s1 =>
    match read_socket env fd inp.recv_ret s1 with
    | .ok len s2 => write_to_js env fd inp.buffer len.toNat s2
    | .exit e s2 => .exit e s2
    | .blocked s2 => .blocked s2
  | .exit e s1 => .exit e s1
  | .blocked s1 => .blocked s1

/-! ## Definitions used to state and prove the properties -/

/-- The state after the two assignments in the body of the loop of `remove_socket`. -/
def evict (s : State) (i : Nat) : State :=
  { s with sockets := Function.update s.sockets i (s.sockets (s.sockets_len - 1)), sockets_len := s.sockets_len - 1 }

/-- The loop of `write_to_js` presented as a traversal of the elements not yet read
(`actions_loop_eq`). -/
def run_actions (env : Env) : List JSValue → State → Outcome Unit
  | [], s => .ok () s
  | e :: rest, s =>
    match JSValueToObject (some e) with
    | none => .ok () s
    | some v =>
      match action_step env (some v) s with
      | .ok _ s' => run_actions env rest s'
      | .exit err s' => .exit err s'
      | .blocked s' => .blocked s'

/-- An Outbound Action of the specification: write bytes to a connection, or close it. -/
inductive Action where
  | write (fd : Int) (bytes : List Nat)
  | close (fd : Int)

/-- Target id of an action. -/
def Action.fd : Action → Int
  | .write fd _ => fd
  | .close fd => fd

/-- Payload of an action: a `Uint8Array` for a write, `null` for a close. -/
def Action.payload : Action → JSValue
  | .write _ bytes => .uint8Array bytes
  | .close _ => .null

/-- The array `[targetId, payload, ...extra]`. -/
def Action.toJSWith (a : Action) (extra : List JSValue) : JSValue :=
  .array (.number a.fd :: a.payload :: extra)

/-- The pair `[targetId, payload]` of the call protocol. -/
def Action.toJS (a : Action) : JSValue := a.toJSWith []

/-- The call an action stands for: `write_socket(targetId, bytes)` with the bytes as C
characters, or `remove_socket(targetId)`. -/
def Action.effect : Action → Event
  | .write fd bytes => .write_socket fd (bytes.map (fun (b : Nat) => int_to_char (b : Int)))
  | .close fd => .remove_socket fd

/-- State after an action whose operating system call succeeds. -/
def Action.apply (a : Action) (s : State) : State :=
  match a with
  | .write _ _ => s.emit a.effect
  | .close fd => remove_loop fd s.sockets_len 0 (s.emit a.effect)

/-- State after a list of actions applied in order. -/
def apply_actions (l : List Action) (s : State) : State := l.foldl (fun s a => a.apply s) s

/-- Every `close` and `write` succeeds. -/
def Env.os_ok (env : Env) : Prop :=
  (∀ l fd, env.close_ok l fd = true) ∧ (∀ l fd b, env.write_ok l fd b = true)

/-- The malformed elements that the loop of `write_to_js` rejects, with the message. -/
inductive Malformed : JSValue → Fatal → Prop where
  | element (v : JSValue) (h1 : v ≠ .null) (h2 : v ≠ .undefined) (h3 : ∀ es, v ≠ .array es) :
      Malformed v .element_not_array
  | target (es : List JSValue) (h : ∀ n, es.head? ≠ some (.number n)) :
      Malformed (.array es) .fd_not_number
  | payload (n : Int) (p : JSValue) (extra : List JSValue) (h1 : p ≠ .null) (h2 : p ≠ .undefined)
      (h3 : ∀ bytes, p ≠ .uint8Array bytes) :
      Malformed (.array (.number n :: p :: extra)) .data_invalid

/-- Whether `write_to_js` reads the element `e` as a request to close the listening
socket: an array whose entry 0 is the number `server_socket` and whose entry 1 is `null`,
`undefined` or absent. -/
def closes_listening (s : State) (e : JSValue) : Bool :=
  JSValueIsArray (some e) && JSValueIsNumber (JSObjectGetPropertyAtIndex (some e) 0) &&
    decide (JSValueToNumber (JSObjectGetPropertyAtIndex (some e) 0) = s.server_socket) &&
    JSValueIsNull (JSValueToObject (JSObjectGetPropertyAtIndex (some e) 1))

/-- The states the server can be in after `init_server`, by the operations that change
the Connection Set: adding an accepted connection, removing a connection after a
zero-length read (the id comes from `get_socket`, which never returns the listening
socket), and applying the batch returned by the script. `allowed s r` says which results
`r` of the entry point are considered in state `s`. -/
inductive Reachable (allowed : State → JSResult → Prop) : State → Prop where
  | init (socket_ret bind_ret listen_ret : Int) (s : State)
      (h : init_server socket_ret bind_ret listen_ret start = .ok () s) : Reachable allowed s
  | accept (fd : Int) (s s' : State) (hs : Reachable allowed s)
      (h : add_socket fd s = .ok () s') : Reachable allowed s'
  | eof (env : Env) (fd : Int) (s s' : State) (hs : Reachable allowed s)
      (hfd : fd ≠ s.server_socket) (h : remove_socket env fd s = .ok () s') : Reachable allowed s'
  | dispatch (env : Env) (fd : Int) (data : List Int) (len : Nat) (s s' : State)
      (hs : Reachable allowed s)
      (ha : allowed s (env.script s.log fd (make_buffer data len).bytes))
      (h : write_to_js env fd data len s = .ok () s') : Reachable allowed s'

/-- No element of the returned array asks to close the listening socket. -/
def spares_listening (s : State) (r : JSResult) : Prop :=
  ∀ elems, r = .returned (.array elems) → ∀ e ∈ elems, closes_listening s e = false

/-- A Connection Set at its bound: 1024 ids. -/
def full_state : State := { server_socket := 3, sockets := fun i => 3 + i, sockets_len := 1024, log := [] }

/-- A Connection Set of three ids: the listening socket 3 and the connections 4 and 5. -/
def three_state : State := { server_socket := 3, sockets := fun i => 3 + i, sockets_len := 3, log := [] }

/-- An environment where every `close` and `write` succeeds and the entry point returns
`ret`. -/
def env_ok (ret : JSValue) : Env :=
  { close_ok := fun _ _ => true, write_ok := fun _ _ _ => true, script := fun _ _ _ => .returned ret }

/-- An environment where every `close` fails. -/
def env_close_fails : Env :=
  { close_ok := fun _ _ => false, write_ok := fun _ _ _ => true, script := fun _ _ _ => .returned (.array []) }

/-- An environment whose entry point is `(id, data) => [[id, data]]`; `write_ok` says
whether `write` succeeds. -/
def env_echo (write_ok : Bool) : Env :=
  { close_ok := fun _ _ => true, write_ok := fun _ _ _ => write_ok,
    script := fun _ id data => .returned (.array [.array [.number id, .uint8Array data]]) }

/-- The message of a fatal exit, if the outcome is one. -/
def Outcome.error {α : Type} : Outcome α → Option Fatal
  | .exit e _ => some e
  | _ => none

/-- Whether the function returned. -/
def Outcome.returned {α : Type} : Outcome α → Bool
  | .ok _ _ => true
  | _ => false

/-! ## Lemmas on the Connection Set -/

theorem mem_live (s : State) (x : Int) :
    x ∈ live s ↔ ∃ j, j < s.sockets_len ∧ s.sockets j = x := by
  simp [live]

theorem live_nodup_iff (s : State) :
    (live s).Nodup ↔ ∀ i j, i < s.sockets_len → j < s.sockets_len → s.sockets i = s.sockets j → i = j := by
  unfold live
  constructor
  · intro h i j hi hj hij
    exact List.inj_on_of_nodup_map h (List.mem_range.2 hi) (List.mem_range.2 hj) hij
  · intro h
    refine List.Nodup.map_on ?_ (List.nodup_range _)
    intro a ha b hb hab
    exact h a b (List.mem_range.1 ha) (List.mem_range.1 hb) hab

theorem remove_loop_succ (fd : Int) (n i : Nat) (s : State) :
    remove_loop fd (n + 1) i s =
      if i < s.sockets_len then
        if s.sockets i ≠ fd then remove_loop fd n (i + 1) s else remove_loop fd n (i + 1) (evict s i)
      else s := rfl

theorem remove_loop_log (fd : Int) (n i : Nat) (s : State) :
    (remove_loop fd n i s).log = s.log ∧ (remove_loop fd n i s).server_socket = s.server_socket := by
  induction n generalizing i s with
  | zero => exact ⟨rfl, rfl⟩
  | succ n ih =>
    rw [remove_loop_succ]
    split_ifs
    · exact ih _ _
    · have := ih (i + 1) (evict s i)
      simpa [evict] using this
    · exact ⟨rfl, rfl⟩

theorem remove_loop_len_le (fd : Int) (n i : Nat) (s : State) :
    (remove_loop fd n i s).sockets_len ≤ s.sockets_len := by
  induction n generalizing i s with
  | zero => exact le_refl _
  | succ n ih =>
    rw [remove_loop_succ]
    split_ifs
    · exact ih _ _
    · have := ih (i + 1) (evict s i)
      have e : (evict s i).sockets_len = s.sockets_len - 1 := rfl
      omega
    · exact le_refl _

/-- The loop of `remove_socket` is given enough steps: more steps change nothing. -/
theorem remove_loop_fuel (fd : Int) (n m i : Nat) (s : State)
    (hn : s.sockets_len - i ≤ n) (hm : n ≤ m) :
    remove_loop fd m i s = remove_loop fd n i s := by
  induction n generalizing m i s with
  | zero =>
    cases m with
    | zero => rfl
    | succ m =>
      rw [remove_loop_succ, if_neg (by omega)]
      rfl
  | succ n ih =>
    cases m with
    | zero => omega
    | succ m =>
      rw [remove_loop_succ, remove_loop_succ]
      split_ifs
      · exact ih m (i + 1) s (by omega) (by omega)
      · exact ih m (i + 1) (evict s i) (by simp only [evict]; omega) (by omega)
      · rfl

theorem mem_live_evict (s : State) (i : Nat) (x : Int) (hi : i < s.sockets_len)
    (hx : x ≠ s.sockets i) (h : x ∈ live s) : x ∈ live (evict s i) := by
  rw [mem_live] at h ⊢
  obtain ⟨j, hj, rfl⟩ := h
  have hji : j ≠ i := fun e => hx (by rw [e])
  by_cases hl : j < s.sockets_len - 1
  · exact ⟨j, hl, by simp [evict, Function.update_apply, hji]⟩
  · have hj' : j = s.sockets_len - 1 := by omega
    refine ⟨i, by simp only [evict]; omega, ?_⟩
    simp [evict, hj']

theorem live_evict_sub (s : State) (i : Nat) (x : Int) (h : x ∈ live (evict s i)) : x ∈ live s := by
  rw [mem_live] at h ⊢
  obtain ⟨j, hj, rfl⟩ := h
  simp only [evict] at hj
  by_cases hji : j = i
  · exact ⟨s.sockets_len - 1, by omega, by simp [evict, hji]⟩
  · exact ⟨j, by omega, by simp [evict, Function.update_apply, hji]⟩

/-- An id other than `fd` is never lost by the loop of `remove_socket`. -/
theorem remove_loop_keeps (fd : Int) (n i : Nat) (s : State) (x : Int) (hx : x ≠ fd)
    (h : x ∈ live s) : x ∈ live (remove_loop fd n i s) := by
  induction n generalizing i s with
  | zero => exact h
  | succ n ih =>
    rw [remove_loop_succ]
    split_ifs with h1 h2
    · exact ih _ _ h
    · have e : s.sockets i = fd := not_not.1 h2
      exact ih _ _ (mem_live_evict s i x h1 (by rw [e]; exact hx) h)
    · exact h

/-- The loop of `remove_socket` adds no id. -/
theorem remove_loop_sub (fd : Int) (n i : Nat) (s : State) (x : Int)
    (h : x ∈ live (remove_loop fd n i s)) : x ∈ live s := by
  induction n generalizing i s with
  | zero => exact h
  | succ n ih =>
    rw [remove_loop_succ] at h
    split_ifs at h with h1 h2
    · exact ih _ _ h
    · exact live_evict_sub s i x (ih _ _ h)
    · exact h

theorem remove_loop_none (fd : Int) (n i : Nat) (s : State)
    (h : ∀ j, i ≤ j → j < s.sockets_len → s.sockets j ≠ fd) : remove_loop fd n i s = s := by
  induction n generalizing i with
  | zero => rfl
  | succ n ih =>
    rw [remove_loop_succ]
    split_ifs with h1 h2
    · exact ih (i + 1) (fun j hj hl => h j (by omega) hl)
    · exact absurd (not_not.1 h2) (h i (le_refl _) h1)
    · rfl

/-- With no id stored twice, the loop evicts `fd` at the index `k` where it is stored. -/
theorem remove_loop_found (fd : Int) (n i k : Nat) (s : State) (hnd : (live s).Nodup)
    (hik : i ≤ k) (hk : k < s.sockets_len) (hfd : s.sockets k = fd) (hn : k - i < n) :
    remove_loop fd n i s = evict s k := by
  rw [live_nodup_iff] at hnd
  induction n generalizing i with
  | zero => omega
  | succ n ih =>
    rw [remove_loop_succ, if_pos (by omega)]
    split_ifs with h2
    · have hne : i ≠ k := fun e => h2 (by rw [e]; exact hfd)
      exact ih (i + 1) (by omega) (by omega)
    · have e : s.sockets i = fd := not_not.1 h2
      have hik' : i = k := hnd i k (by omega) hk (by rw [e, hfd])
      subst hik'
      apply remove_loop_none
      intro j hj hl
      simp only [evict] at hl ⊢
      have hji : j ≠ i := by omega
      rw [Function.update_apply, if_neg hji]
      intro hc
      exact hji (hnd j i (by omega) hk (by rw [hc, e]))

theorem evict_spec (s : State) (k : Nat) (hnd : (live s).Nodup) (hk : k < s.sockets_len) :
    s.sockets k ∉ live (evict s k) ∧ (live (evict s k)).Nodup := by
  have hinj := (live_nodup_iff s).1 hnd
  constructor
  · rw [mem_live]
    rintro ⟨j, hj, hv⟩
    simp only [evict] at hj hv
    rw [Function.update_apply] at hv
    split_ifs at hv with hjk
    · have := hinj _ _ (by omega) hk hv
      omega
    · exact hjk (hinj _ _ (by omega) hk hv)
  · rw [live_nodup_iff]
    intro a b ha hb hab
    simp only [evict] at ha hb hab
    rw [Function.update_apply, Function.update_apply] at hab
    split_ifs at hab with h1 h2 h2
    · rw [h1, h2]
    · have := hinj _ _ (by omega) (by omega) hab
      omega
    · have := hinj _ _ (by omega) (by omega) hab
      omega
    · exact hinj _ _ (by omega) (by omega) hab

/-- With no id stored twice, `fd` is not in the set after the loop of `remove_socket`. -/
theorem remove_loop_removes (fd : Int) (s : State) (hnd : (live s).Nodup) :
    fd ∉ live (remove_loop fd s.sockets_len 0 s) := by
  by_cases hmem : fd ∈ live s
  · obtain ⟨k, hk, hfd⟩ := (mem_live s fd).1 hmem
    rw [remove_loop_found fd s.sockets_len 0 k s hnd (Nat.zero_le _) hk hfd (by omega)]
    have := (evict_spec s k hnd hk).1
    rw [hfd] at this
    exact this
  · rw [remove_loop_none]
    · exact hmem
    · intro j _ hj hv
      exact hmem ((mem_live s fd).2 ⟨j, hj, hv⟩)

/-! ## Lemmas on the buffers -/

theorem int_to_char_toUint8 (c : Int) (h1 : -128 ≤ c) (h2 : c ≤ 127) :
    int_to_char ((toUint8 c : Nat) : Int) = c := by
  unfold int_to_char toUint8
  rw [Int.toNat_of_nonneg (Int.emod_nonneg _ (by decide))]
  omega

theorem char_of_byte_range (b : Nat) (h : b < 256) :
    -128 ≤ char_of_byte b ∧ char_of_byte b ≤ 127 := by
  unfold char_of_byte
  split_ifs <;> omega

theorem toUint8_char_of_byte (b : Nat) (h : b < 256) : toUint8 (char_of_byte b) = b := by
  unfold toUint8 char_of_byte
  split_ifs <;> omega

theorem byte_of_char_of_byte (b : Nat) (h : b < 256) : byte_of_char (char_of_byte b) = b :=
  toUint8_char_of_byte b h

theorem foldl_set_uint8 (g : Nat → Int) (l : List Nat) (is : List Nat) :
    is.foldl (fun buffer i => JSObjectSetPropertyAtIndex buffer i (JSValueMakeNumber (g i)))
        (some (.uint8Array l)) =
      some (.uint8Array (is.foldl (fun acc i => acc.set i (toUint8 (g i))) l)) := by
  induction is generalizing l with
  | nil => rfl
  | cons i is ih =>
    simp only [List.foldl_cons]
    exact ih _

theorem foldl_set_range (f : Nat → Nat) (len k : Nat) (hk : k ≤ len) :
    (List.range k).foldl (fun acc i => acc.set i (f i)) (List.replicate len 0) =
      (List.range k).map f ++ List.replicate (len - k) 0 := by
  induction k with
  | zero => simp
  | succ k ih =>
    rw [List.range_succ, List.foldl_append, ih (by omega)]
    simp only [List.foldl_cons, List.foldl_nil, List.map_append, List.map_cons, List.map_nil]
    rw [List.set_append_right _ _ (by simp)]
    have e : len - k = (len - (k + 1)) + 1 := by omega
    rw [e, List.replicate_succ]
    simp

/-- The buffer handed to the script holds `data[i]` modulo 2^8 at index `i`. -/
theorem make_buffer_eq (data : List Int) (len : Nat) :
    make_buffer data len = some (.uint8Array ((List.range len).map (fun i => toUint8 (data.getD i 0)))) := by
  unfold make_buffer JSObjectMakeTypedArray
  rw [foldl_set_uint8 (fun i => data.getD i 0)]
  have h : ∀ i, toUint8 (JSValueToNumber (JSValueMakeNumber (data.getD i 0))) = toUint8 (data.getD i 0) :=
    fun _ => rfl
  rw [foldl_set_range (fun i => toUint8 (data.getD i 0)) len len (le_refl _)]
  simp

theorem range_map_getD {α β : Type} (l : List α) (d : α) (g : α → β) :
    (List.range l.length).map (fun i => g (l.getD i d)) = l.map g := by
  apply List.ext_getElem
  · simp
  · intro n h1 h2
    simp only [List.getElem_map, List.getElem_range]
    rw [List.getD_eq_getElem _ _ (by simpa using h2)]

theorem make_buffer_of_length (data : List Int) :
    make_buffer data data.length = some (.uint8Array (data.map toUint8)) := by
  rw [make_buffer_eq, range_map_getD data 0 toUint8]

theorem copy_buffer_uint8 (bytes : List Nat) :
    copy_buffer (some (.uint8Array bytes)) = bytes.map (fun (b : Nat) => int_to_char (b : Int)) := by
  unfold copy_buffer
  have hlen : JSObjectGetTypedArrayLength (some (.uint8Array bytes)) = bytes.length := rfl
  rw [hlen, ← range_map_getD bytes 0 (fun (b : Nat) => int_to_char (b : Int))]
  apply List.map_congr_left
  intro i hi
  have hi' : i < bytes.length := List.mem_range.1 hi
  simp [JSObjectGetPropertyAtIndex, toJS, hi', JSValueToNumber]


theorem make_buffer_bytes (b : List Nat) (hb : ∀ x ∈ b, x < 256) :
    make_buffer (b.map char_of_byte) b.length = some (.uint8Array b) := by
  have := make_buffer_of_length (b.map char_of_byte)
  rw [List.length_map] at this
  rw [this, List.map_map]
  congr 2
  conv_rhs => rw [← List.map_id b]
  apply List.map_congr_left
  intro x hx
  exact toUint8_char_of_byte x (hb x hx)

theorem copy_buffer_bytes (b : List Nat) (hb : ∀ x ∈ b, x < 256) :
    copy_buffer (some (.uint8Array b)) = b.map char_of_byte := by
  rw [copy_buffer_uint8]
  apply List.map_congr_left
  intro x hx
  have hr := char_of_byte_range x (hb x hx)
  have := int_to_char_toUint8 (char_of_byte x) hr.1 hr.2
  rw [toUint8_char_of_byte x (hb x hx)] at this
  exact this


/-! ## Lemmas on the script bridge -/

theorem actions_loop_succ (env : Env) (arr : JSRef) (n index : Nat) (s : State) :
    actions_loop env arr (n + 1) index s =
      match JSValueToObject (JSObjectGetPropertyAtIndex arr index) with
      | none => .ok () s
      | some v =>
        match action_step env (some v) s with
        | .ok _ s' => actions_loop env arr n (index + 1) s'
        | .exit e s' => .exit e s'
        | .blocked s' => .blocked s' := rfl

theorem run_actions_cons (env : Env) (e : JSValue) (rest : List JSValue) (s : State) :
    run_actions env (e :: rest) s =
      match JSValueToObject (some e) with
      | none => .ok () s
      | some v =>
        match action_step env (some v) s with
        | .ok _ s' => run_actions env rest s'
        | .exit err s' => .exit err s'
        | .blocked s' => .blocked s' := rfl

/-- The loop of `write_to_js` is given enough steps: on an array of `length` elements,
from `index` on, more than `length - index` steps give the traversal of the elements
from `index` on, which never runs out of steps. -/
theorem actions_loop_eq (env : Env) (elems : List JSValue) (n index : Nat) (s : State)
    (hn : elems.length - index < n) :
    actions_loop env (some (.array elems)) n index s = run_actions env (elems.drop index) s := by
  induction n generalizing index s with
  | zero => omega
  | succ n ih =>
    rw [actions_loop_succ]
    by_cases hi : index < elems.length
    · have hget : JSObjectGetPropertyAtIndex (some (.array elems)) index = some elems[index] := by
        show some (elems.getD index .undefined) = _
        rw [List.getD_eq_getElem _ _ hi]
      rw [List.drop_eq_getElem_cons hi, run_actions_cons, hget]
      cases JSValueToObject (some elems[index]) with
      | none => rfl
      | some v =>
        simp only []
        cases action_step env (some v) s with
        | ok _ s' => exact ih (index + 1) s' (by omega)
        | exit e s' => rfl
        | blocked s' => rfl
    · have hget : JSObjectGetPropertyAtIndex (some (.array elems)) index = some .undefined := by
        show some (elems.getD index .undefined) = _
        rw [List.getD_eq_default _ _ (not_lt.1 hi)]
      rw [hget, List.drop_of_length_le (not_lt.1 hi)]
      rfl

theorem write_to_js_array (env : Env) (fd : Int) (data : List Int) (len : Nat) (s : State)
    (elems : List JSValue)
    (h : env.script s.log fd (make_buffer data len).bytes = .returned (.array elems)) :
    write_to_js env fd data len s =
      run_actions env elems (s.emit (.call_js fd (make_buffer data len).bytes)) := by
  unfold write_to_js
  simp only [h]
  have h1 : JSValueToObject (some (JSValue.array elems)) = some (.array elems) := rfl
  have h2 : JSValueIsArray (some (JSValue.array elems)) = true := rfl
  have h3 : JSRef.length (some (JSValue.array elems)) = elems.length := rfl
  rw [h1, h2, h3]
  simp only [Bool.not_true, Bool.false_eq_true, if_false]
  rw [actions_loop_eq env elems _ 0 _ (by omega), List.drop_zero]

theorem isArray_toObject (v : JSValue) :
    JSValueIsArray (JSValueToObject (some v)) = JSValueIsArray (some v) := by
  cases v <;> rfl

theorem write_to_js_not_array (env : Env) (fd : Int) (data : List Int) (len : Nat) (s : State)
    (v : JSValue) (h : env.script s.log fd (make_buffer data len).bytes = .returned v)
    (hv : JSValueIsArray (some v) = false) :
    write_to_js env fd data len s =
      throw .not_array (s.emit (.call_js fd (make_buffer data len).bytes)) := by
  unfold write_to_js
  simp only [h]
  rw [isArray_toObject, hv]
  simp

theorem write_to_js_threw (env : Env) (fd : Int) (data : List Int) (len : Nat) (s : State)
    (exc : JSValue) (h : env.script s.log fd (make_buffer data len).bytes = .threw exc) :
    write_to_js env fd data len s =
      throw_js (s.emit (.call_js fd (make_buffer data len).bytes)) := by
  unfold write_to_js
  simp only [h]

theorem action_step_array (env : Env) (n : Int) (p : JSValue) (extra : List JSValue) (s : State) :
    action_step env (some (.array (.number n :: p :: extra))) s =
      if JSValueIsNull (JSValueToObject (some p)) then remove_socket env n s
      else if JSValueGetTypedArrayType (JSValueToObject (some p)) = 3 then
        write_socket env n (copy_buffer (JSValueToObject (some p)))
          (JSObjectGetTypedArrayLength (JSValueToObject (some p))) s
      else throw .data_invalid s := rfl

theorem remove_socket_ok (env : Env) (fd : Int) (s : State) (h : env.close_ok s.log fd = true) :
    remove_socket env fd s = .ok () ((Action.close fd).apply s) := by
  simp [remove_socket, h, Action.apply, Action.effect, State.emit]

theorem write_socket_ok (env : Env) (fd : Int) (buffer : List Int) (s : State)
    (h : env.write_ok s.log fd buffer = true) :
    write_socket env fd buffer buffer.length s = .ok () (s.emit (.write_socket fd buffer)) := by
  simp [write_socket, h]

theorem write_socket_fail (env : Env) (fd : Int) (buffer : List Int) (s : State)
    (h : env.write_ok s.log fd buffer = false) :
    write_socket env fd buffer buffer.length s = throw .send_failed (s.emit (.write_socket fd buffer)) := by
  simp [write_socket, h]

/-- A well-formed element, with any further entries, is applied as its action. -/
theorem action_step_wf (env : Env) (hos : env.os_ok) (a : Action) (extra : List JSValue) (s : State) :
    action_step env (some (a.toJSWith extra)) s = .ok () (a.apply s) := by
  cases a with
  | write fd bytes =>
    have hw := write_socket_ok env fd (bytes.map (fun (b : Nat) => int_to_char (b : Int))) s (hos.2 _ _ _)
    rw [List.length_map] at hw
    simp only [Action.toJSWith, Action.fd, Action.payload]
    rw [action_step_array]
    have h1 : JSValueToObject (some (JSValue.uint8Array bytes)) = some (.uint8Array bytes) := rfl
    rw [h1, copy_buffer_uint8]
    exact hw
  | close fd =>
    simp only [Action.toJSWith, Action.fd, Action.payload]
    rw [action_step_array]
    exact remove_socket_ok env fd s (hos.1 _ _)

theorem run_actions_wf (env : Env) (hos : env.os_ok) (l : List (Action × List JSValue))
    (rest : List JSValue) (s : State) :
    run_actions env (l.map (fun p => p.1.toJSWith p.2) ++ rest) s =
      run_actions env rest (apply_actions (l.map Prod.fst) s) := by
  induction l generalizing s with
  | nil => rfl
  | cons p l ih =>
    rw [List.map_cons, List.cons_append, run_actions_cons]
    have h1 : JSValueToObject (some (p.1.toJSWith p.2)) = some (p.1.toJSWith p.2) := rfl
    rw [h1]
    simp only []
    rw [action_step_wf env hos]
    simp only []
    rw [ih]
    rfl

theorem action_apply_log (a : Action) (s : State) :
    (a.apply s).log = s.log ++ [a.effect] ∧ (a.apply s).server_socket = s.server_socket := by
  cases a with
  | write fd bytes => exact ⟨rfl, rfl⟩
  | close fd =>
    have := remove_loop_log fd s.sockets_len 0 (s.emit (Action.close fd).effect)
    exact ⟨this.1, this.2⟩

theorem apply_actions_log (l : List Action) (s : State) :
    (apply_actions l s).log = s.log ++ l.map Action.effect ∧
      (apply_actions l s).server_socket = s.server_socket := by
  induction l generalizing s with
  | nil => simp [apply_actions]
  | cons a l ih =>
    have h := ih (a.apply s)
    have ha := action_apply_log a s
    simp only [apply_actions, List.foldl_cons] at h ⊢
    rw [h.1, h.2, ha.1, ha.2]
    simp

theorem run_actions_malformed (env : Env) (v : JSValue) (e : Fatal) (hm : Malformed v e)
    (rest : List JSValue) (s : State) : run_actions env (v :: rest) s = throw e s := by
  cases hm with
  | element _ h1 h2 h3 =>
    rw [run_actions_cons]
    cases v with
    | undefined => exact absurd rfl h2
    | null => exact absurd rfl h1
    | array es => exact absurd rfl (h3 es)
    | boolean b => rfl
    | number n => rfl
    | string str => rfl
    | uint8Array bytes => rfl
    | object kind => rfl
  | target es h =>
    rw [run_actions_cons]
    cases es with
    | nil => rfl
    | cons x xs =>
      cases x with
      | number n => exact absurd rfl (h n)
      | undefined => rfl
      | null => rfl
      | array es => rfl
      | boolean b => rfl
      | string str => rfl
      | uint8Array bytes => rfl
      | object kind => rfl
  | payload n p extra h1 h2 h3 =>
    rw [run_actions_cons]
    have h0 : JSValueToObject (some (JSValue.array (.number n :: p :: extra))) =
        some (.array (.number n :: p :: extra)) := rfl
    rw [h0]
    simp only []
    rw [action_step_array]
    cases p with
    | undefined => exact absurd rfl h2
    | null => exact absurd rfl h1
    | uint8Array bytes => exact absurd rfl (h3 bytes)
    | array es => rfl
    | boolean b => rfl
    | number n => rfl
    | string str => rfl
    | object kind => cases kind <;> rfl

/-! ## Lemmas on the readiness multiplexer -/

theorem maxfd_foldl (f : Nat → Int) (l : List Nat) (m : Int) :
    m ≤ l.foldl (fun m i => if f i ≥ m then f i + 1 else m) m ∧
      ∀ i ∈ l, f i < l.foldl (fun m i => if f i ≥ m then f i + 1 else m) m := by
  induction l generalizing m with
  | nil => simp
  | cons a l ih =>
    simp only [List.foldl_cons, List.mem_cons]
    have h := ih (if f a ≥ m then f a + 1 else m)
    constructor
    · refine le_trans ?_ h.1
      split_ifs <;> omega
    · intro i hi
      rcases hi with rfl | hi
      · refine lt_of_lt_of_le ?_ h.1
        split_ifs <;> omega
      · exact h.2 i hi

theorem lt_maxfd (s : State) (x : Int) (h : x ∈ live s) : x < maxfd s := by
  obtain ⟨j, hj, rfl⟩ := (mem_live s x).1 h
  exact (maxfd_foldl s.sockets (List.range s.sockets_len) 0).2 j (List.mem_range.2 hj)

theorem scan_loop_succ (s : State) (list : Nat → Bool) (accept_ret : Int) (n i : Nat) :
    scan_loop s list accept_ret (n + 1) i =
      if !list i then scan_loop s list accept_ret n (i + 1)
      else if (i : Int) = s.server_socket then
        if accept_ret < 0 then throw .accept_failed s
        else
          match add_socket accept_ret s with
          | .ok _ s' => .ok none s'
          | .exit e s' => .exit e s'
          | .blocked s' => .blocked s'
      else .ok (some (i : Int)) s := rfl

/-- What the scan does at the lowest set descriptor `k`. -/
theorem scan_loop_first (s : State) (list : Nat → Bool) (accept_ret : Int) (n i k : Nat)
    (hik : i ≤ k) (hkn : k < i + n) (hk : list k = true)
    (hlow : ∀ j, i ≤ j → j < k → list j = false) :
    scan_loop s list accept_ret n i =
      if (k : Int) = s.server_socket then
        if accept_ret < 0 then throw .accept_failed s
        else
          match add_socket accept_ret s with
          | .ok _ s' => .ok none s'
          | .exit e s' => .exit e s'
          | .blocked s' => .blocked s'
      else .ok (some (k : Int)) s := by
  induction n generalizing i with
  | zero => omega
  | succ n ih =>
    rw [scan_loop_succ]
    by_cases hi : i = k
    · subst hi
      simp [hk]
    · have hf : list i = false := hlow i (le_refl _) (by omega)
      simp only [hf, Bool.not_false, if_true]
      exact ih (i + 1) (by omega) (by omega) (fun j h1 h2 => hlow j (by omega) h2)

theorem add_socket_branch (fd : Int) (s : State) :
    (s.sockets_len < 1024 ∧ add_socket fd s = .ok ()
      { s with sockets := Function.update s.sockets s.sockets_len fd, sockets_len := s.sockets_len + 1 }) ∨
    (1024 ≤ s.sockets_len ∧ add_socket fd s = throw .max_sockets s) := by
  unfold add_socket
  by_cases h : s.sockets_len ≥ 1024
  · right
    exact ⟨h, by rw [if_pos h]⟩
  · left
    exact ⟨by omega, by rw [if_neg h]⟩

theorem live_add (fd : Int) (s : State) :
    live { s with sockets := Function.update s.sockets s.sockets_len fd, sockets_len := s.sockets_len + 1 } =
      live s ++ [fd] := by
  simp only [live, List.range_succ, List.map_append, List.map_cons, List.map_nil,
    Function.update_same]
  congr 1
  apply List.map_congr_left
  intro a ha
  rw [Function.update_apply, if_neg (Nat.ne_of_lt (List.mem_range.1 ha))]

/-- A descriptor returned by the scan is set in `list`, is not the listening socket, and
no lower descriptor is set; the state is as before. -/
theorem scan_loop_some (s : State) (list : Nat → Bool) (accept_ret : Int) (n i : Nat)
    (d : Int) (s' : State) (h : scan_loop s list accept_ret n i = .ok (some d) s') :
    s' = s ∧ ∃ k : Nat, d = (k : Int) ∧ i ≤ k ∧ k < i + n ∧ list k = true ∧
      (k : Int) ≠ s.server_socket ∧ ∀ j, i ≤ j → j < k → list j = false := by
  induction n generalizing i with
  | zero => cases h
  | succ n ih =>
    rw [scan_loop_succ] at h
    by_cases hi : list i = true
    · simp only [hi, Bool.not_true, Bool.false_eq_true, if_false] at h
      by_cases hsrv : (i : Int) = s.server_socket
      · rw [if_pos hsrv] at h
        by_cases ha : accept_ret < 0
        · rw [if_pos ha] at h
          cases h
        · rw [if_neg ha] at h
          rcases add_socket_branch accept_ret s with ⟨_, e⟩ | ⟨_, e⟩
          · rw [e] at h
            cases h
          · rw [e] at h
            cases h
      · rw [if_neg hsrv] at h
        cases h
        exact ⟨rfl, i, rfl, le_refl _, by omega, hi, hsrv, fun j h1 h2 => by omega⟩
    · have hf : list i = false := by simpa using hi
      simp only [hf, Bool.not_false, if_true] at h
      obtain ⟨e, k, hd, h1, h2, h3, h4, h5⟩ := ih (i + 1) h
      refine ⟨e, k, hd, by omega, by omega, h3, h4, ?_⟩
      intro j hj1 hj2
      by_cases hji : j = i
      · rw [hji]
        exact hf
      · exact h5 j (by omega) hj2

theorem get_socket_cons (s : State) (r : SelectRound) (rest : List SelectRound) :
    get_socket s (r :: rest) =
      match get_socket_round s r with
      | .ok (some fd) s' => .ok fd s'
      | .ok none s' => get_socket s' rest
      | .exit e s' => .exit e s'
      | .blocked s' => .blocked s' := rfl

theorem fd_list_true (s : State) (r : SelectRound) (k : Nat) (h : fd_list s r k = true) :
    (k : Int) ∈ live s ∧ r.readable k = true := by
  simpa [fd_list] using h

/-- The descriptor that `get_socket` returns comes from its last pass. -/
theorem get_socket_ok (s : State) (rounds : List SelectRound) (d : Int) (s' : State)
    (h : get_socket s rounds = .ok d s') :
    ∃ pre r rest, ∃ k : Nat, rounds = pre ++ r :: rest ∧ get_socket s pre = .blocked s' ∧
      get_socket_round s' r = .ok (some d) s' ∧ d = (k : Int) ∧ fd_list s' r k = true ∧
      d ≠ s'.server_socket ∧ ∀ j, j < k → fd_list s' r j = false := by
  induction rounds generalizing s with
  | nil => cases h
  | cons r rest ih =>
    rw [get_socket_cons] at h
    cases hr : get_socket_round s r with
    | ok val s1 =>
      rw [hr] at h
      cases val with
      | some fd =>
        simp only [] at h
        cases h
        have hr' := hr
        unfold get_socket_round at hr'
        by_cases hsel : r.select_ret < 0
        · rw [if_pos hsel] at hr'
          cases hr'
        · rw [if_neg hsel] at hr'
          obtain ⟨e, k, hd, _, _, h3, h4, h5⟩ := scan_loop_some _ _ _ _ _ _ _ hr'
          subst e
          exact ⟨[], r, rest, k, rfl, rfl, hr, hd, h3, by rw [hd]; exact h4,
            fun j hj => h5 j (Nat.zero_le _) hj⟩
      | none =>
        simp only [] at h
        obtain ⟨pre, r', rest', k, e, hb, h1, h2, h3, h4, h5⟩ := ih s1 h
        refine ⟨r :: pre, r', rest', k, by rw [e]; rfl, ?_, h1, h2, h3, h4, h5⟩
        rw [get_socket_cons, hr]
        exact hb
    | exit e s1 =>
      rw [hr] at h
      cases h
    | blocked s1 =>
      rw [hr] at h
      cases h

/-! ## Lemmas on the log and on the listening socket -/

theorem remove_socket_fail (env : Env) (fd : Int) (s : State) (h : env.close_ok s.log fd = false) :
    remove_socket env fd s = throw .close_failed (s.emit (.remove_socket fd)) := by
  simp [remove_socket, h]

theorem throw_emit_log (e : Fatal) (s : State) (ev : Event) :
    (throw e (s.emit ev) : Outcome Unit).state.log = s.log ++ ev :: (live s).map Event.close := by
  simp [throw, Outcome.state, State.emit, live]

theorem remove_socket_log (env : Env) (fd : Int) (s : State) :
    ∃ tail, (remove_socket env fd s).state.log = s.log ++ tail := by
  cases h : env.close_ok s.log fd with
  | false =>
    rw [remove_socket_fail env fd s h]
    exact ⟨_, throw_emit_log _ _ _⟩
  | true =>
    rw [remove_socket_ok env fd s h]
    exact ⟨_, (action_apply_log (.close fd) s).1⟩

theorem write_socket_log (env : Env) (fd : Int) (buffer : List Int) (len : Nat) (s : State) :
    ∃ tail, (write_socket env fd buffer len s).state.log = s.log ++ tail := by
  unfold write_socket
  cases h : env.write_ok s.log fd (buffer.take len) with
  | false =>
    simp only [if_true]
    exact ⟨_, throw_emit_log _ _ _⟩
  | true =>
    simp only [Bool.true_eq_false, if_false]
    exact ⟨[_], rfl⟩

theorem throw_log (e : Fatal) (s : State) :
    ∃ tail, (throw e s : Outcome Unit).state.log = s.log ++ tail := ⟨_, rfl⟩

theorem action_step_log (env : Env) (v : JSRef) (s : State) :
    ∃ tail, (action_step env v s).state.log = s.log ++ tail := by
  unfold action_step
  simp only []
  split_ifs
  · exact throw_log _ _
  · exact throw_log _ _
  · exact remove_socket_log _ _ _
  · exact write_socket_log _ _ _ _ _
  · exact throw_log _ _

theorem run_actions_log (env : Env) (elems : List JSValue) (s : State) :
    ∃ tail, (run_actions env elems s).state.log = s.log ++ tail := by
  induction elems generalizing s with
  | nil => exact ⟨[], by simp [run_actions, Outcome.state]⟩
  | cons e rest ih =>
    rw [run_actions_cons]
    cases JSValueToObject (some e) with
    | none => exact ⟨[], by simp [Outcome.state]⟩
    | some v =>
      simp only []
      obtain ⟨t1, h1⟩ := action_step_log env (some v) s
      cases hstep : action_step env (some v) s with
      | ok _ s' =>
        rw [hstep] at h1
        obtain ⟨t2, h2⟩ := ih s'
        simp only [Outcome.state] at h1
        exact ⟨t1 ++ t2, by rw [h2, h1, List.append_assoc]⟩
      | exit err s' =>
        rw [hstep] at h1
        exact ⟨t1, h1⟩
      | blocked s' =>
        rw [hstep] at h1
        exact ⟨t1, h1⟩

/-- Whatever the script returns, the log after `write_to_js` is the log before, then the
call of the entry point, then further calls. -/
theorem write_to_js_log (env : Env) (fd : Int) (data : List Int) (len : Nat) (s : State) :
    ∃ tail, (write_to_js env fd data len s).state.log =
      s.log ++ Event.call_js fd (make_buffer data len).bytes :: tail := by
  cases hret : env.script s.log fd (make_buffer data len).bytes with
  | threw exc =>
    rw [write_to_js_threw env fd data len s exc hret]
    exact ⟨[], rfl⟩
  | returned v =>
    by_cases hv : JSValueIsArray (some v) = true
    · cases v with
      | array elems =>
        rw [write_to_js_array env fd data len s elems hret]
        obtain ⟨t, ht⟩ := run_actions_log env elems (s.emit (.call_js fd (make_buffer data len).bytes))
        exact ⟨t, by rw [ht]; simp [State.emit]⟩
      | undefined => cases hv
      | null => cases hv
      | boolean b => cases hv
      | number n => cases hv
      | string str => cases hv
      | uint8Array bytes => cases hv
      | object kind => cases hv
    · rw [write_to_js_not_array env fd data len s v hret (by simpa using hv)]
      exact ⟨_, throw_emit_log _ _ _⟩

theorem toObject_of_array (e v : JSValue) (h : JSValueToObject (some e) = some v)
    (hv : JSValueIsArray (some v) = true) : v = e := by
  cases e <;> first | cases h; rfl | (cases h; cases hv) | cases h

theorem closes_listening_congr (s s' : State) (e : JSValue) (h : s'.server_socket = s.server_socket) :
    closes_listening s' e = closes_listening s e := by
  unfold closes_listening
  rw [h]

/-- A step of the loop of `write_to_js` that does not close the listening socket keeps
it in the Connection Set. -/
theorem action_step_keeps (env : Env) (e v : JSValue) (s s' : State)
    (hto : JSValueToObject (some e) = some v) (hc : closes_listening s e = false)
    (hmem : s.server_socket ∈ live s) (h : action_step env (some v) s = .ok () s') :
    s'.server_socket = s.server_socket ∧ s.server_socket ∈ live s' := by
  unfold action_step at h
  simp only [] at h
  by_cases harr : JSValueIsArray (some v) = true
  · have hev := toObject_of_array e v hto harr
    subst hev
    simp only [harr, Bool.not_true, Bool.false_eq_true, if_false] at h
    by_cases hnum : JSValueIsNumber (JSObjectGetPropertyAtIndex (some v) 0) = true
    · simp only [hnum, Bool.not_true, Bool.false_eq_true, if_false] at h
      by_cases hnull : JSValueIsNull (JSValueToObject (JSObjectGetPropertyAtIndex (some v) 1)) = true
      · simp only [hnull, if_true] at h
        have hne : JSValueToNumber (JSObjectGetPropertyAtIndex (some v) 0) ≠ s.server_socket := by
          intro heq
          simp [closes_listening, harr, hnum, hnull, heq] at hc
        unfold remove_socket at h
        simp only [] at h
        split_ifs at h
        · cases h
        · cases h
          have hl := remove_loop_log (JSValueToNumber (JSObjectGetPropertyAtIndex (some v) 0))
            s.sockets_len 0 (s.emit (.remove_socket (JSValueToNumber (JSObjectGetPropertyAtIndex (some v) 0))))
          exact ⟨hl.2, remove_loop_keeps _ _ _ (s.emit _) _ (Ne.symm hne) hmem⟩
      · simp only [hnull, Bool.false_eq_true, if_false] at h
        split_ifs at h
        · unfold write_socket at h
          simp only [] at h
          split_ifs at h
          · cases h
          · cases h
            exact ⟨rfl, hmem⟩
        · cases h
    · simp only [hnum, Bool.not_false, if_true] at h
      cases h
  · simp only [harr, Bool.not_false, if_true] at h
    cases h

theorem run_actions_keeps (env : Env) (elems : List JSValue) (s s' : State)
    (hc : ∀ e ∈ elems, closes_listening s e = false) (hmem : s.server_socket ∈ live s)
    (h : run_actions env elems s = .ok () s') :
    s'.server_socket = s.server_socket ∧ s.server_socket ∈ live s' := by
  induction elems generalizing s with
  | nil =>
    cases h
    exact ⟨rfl, hmem⟩
  | cons e rest ih =>
    rw [run_actions_cons] at h
    cases hto : JSValueToObject (some e) with
    | none =>
      rw [hto] at h
      cases h
      exact ⟨rfl, hmem⟩
    | some v =>
      rw [hto] at h
      simp only [] at h
      cases hstep : action_step env (some v) s with
      | ok _ s1 =>
        rw [hstep] at h
        simp only [] at h
        have h1 := action_step_keeps env e v s s1 hto (hc e (List.mem_cons_self _ _)) hmem hstep
        have h2 := ih s1
          (fun x hx => by rw [closes_listening_congr s s1 x h1.1]; exact hc x (List.mem_cons_of_mem _ hx))
          (by rw [h1.1]; exact h1.2) h
        exact ⟨by rw [h2.1, h1.1], by rw [← h1.1]; exact h2.2⟩
      | exit err s1 =>
        rw [hstep] at h
        cases h
      | blocked s1 =>
        rw [hstep] at h
        cases h

/-! ## Connection Set and buffers -/

/-- C7: `add_socket` exits (with `max_sockets`) exactly when `sockets_len` has reached the
bound 1024, which for a set within the bound means that it holds 1024 ids; the stored
ids and `sockets_len` are then unchanged. Below the bound it returns, `fd` is stored at
index `sockets_len`, `sockets_len` grows by exactly one and every id stored before keeps
its index. -/
theorem add_socket_capacity (fd : Int) (s : State) :
    ((∃ e s', add_socket fd s = .exit e s') ↔ 1024 ≤ s.sockets_len) ∧
    (s.sockets_len ≤ 1024 → ((∃ e s', add_socket fd s = .exit e s') ↔ s.sockets_len = 1024)) ∧
    (1024 ≤ s.sockets_len → ∃ s', add_socket fd s = .exit .max_sockets s' ∧
      s'.sockets = s.sockets ∧ s'.sockets_len = s.sockets_len) ∧
    (s.sockets_len < 1024 → ∃ s', add_socket fd s = .ok () s' ∧
      s'.sockets s.sockets_len = fd ∧ s'.sockets_len = s.sockets_len + 1 ∧
      (∀ i, i < s.sockets_len → s'.sockets i = s.sockets i) ∧ live s' = live s ++ [fd]) := by
  have hexit : (∃ e s', add_socket fd s = .exit e s') ↔ 1024 ≤ s.sockets_len := by
    unfold add_socket
    split_ifs with h
    · exact ⟨fun _ => h, fun _ => ⟨_, _, rfl⟩⟩
    · constructor
      · rintro ⟨e, s', he⟩
        cases he
      · intro h'
        exact absurd h' h
  refine ⟨hexit, ?_, ?_, ?_⟩
  · intro hle
    rw [hexit]
    omega
  · intro h
    refine ⟨{ s with log := s.log ++ (live s).map Event.close }, ?_, rfl, rfl⟩
    unfold add_socket
    rw [if_pos h]
    rfl
  · intro h
    refine ⟨{ s with sockets := Function.update s.sockets s.sockets_len fd,
                     sockets_len := s.sockets_len + 1 }, ?_, ?_, rfl, ?_, ?_⟩
    · unfold add_socket
      rw [if_neg (by omega)]
    · simp
    · intro i hi
      simp [Function.update_apply, Nat.ne_of_lt hi]
    · simp only [live, List.range_succ, List.map_append, List.map_cons, List.map_nil,
        Function.update_same]
      congr 1
      apply List.map_congr_left
      intro a ha
      rw [Function.update_apply, if_neg (Nat.ne_of_lt (List.mem_range.1 ha))]

/-- Instance: adding 9 to a full set exits, adding 9 to a set of three ids stores it at index 3. -/
theorem add_socket_capacity_witness :
    (∃ s', add_socket 9 full_state = .exit .max_sockets s' ∧
      s'.sockets = full_state.sockets ∧ s'.sockets_len = full_state.sockets_len) ∧
    (∃ s', add_socket 9 three_state = .ok () s' ∧
      s'.sockets three_state.sockets_len = 9 ∧ s'.sockets_len = three_state.sockets_len + 1 ∧
      (∀ i, i < three_state.sockets_len → s'.sockets i = three_state.sockets i) ∧
      live s' = live three_state ++ [9]) :=
  ⟨(add_socket_capacity 9 full_state).2.2.1 (by decide),
   (add_socket_capacity 9 three_state).2.2.2 (by decide)⟩

/-- C9: on a Connection Set that holds no id twice, when `close` succeeds
`remove_socket(fd)` returns with a set that does not hold `fd`, holds every other id
exactly as before (each still once, nothing new) and is one shorter if `fd` was present,
unchanged if it was absent; when `close` fails it exits with `close_failed` and the
stored ids and `sockets_len` are as before. -/
theorem remove_socket_spec (env : Env) (fd : Int) (s : State) (hnd : (live s).Nodup) :
    (env.close_ok s.log fd = true → ∃ s', remove_socket env fd s = .ok () s' ∧
      fd ∉ live s' ∧ (∀ x, x ≠ fd → (x ∈ live s' ↔ x ∈ live s)) ∧ (live s').Nodup ∧
      (fd ∈ live s → s'.sockets_len + 1 = s.sockets_len) ∧
      (fd ∉ live s → s'.sockets_len = s.sockets_len ∧ s'.sockets = s.sockets)) ∧
    (env.close_ok s.log fd = false → ∃ s', remove_socket env fd s = .exit .close_failed s' ∧
      s'.sockets = s.sockets ∧ s'.sockets_len = s.sockets_len) := by
  constructor
  · intro hc
    refine ⟨remove_loop fd s.sockets_len 0 (s.emit (.remove_socket fd)), ?_, ?_⟩
    · simp [remove_socket, hc, State.emit]
    · have hl : live (s.emit (.remove_socket fd)) = live s := rfl
      have hnd1 : (live (s.emit (.remove_socket fd))).Nodup := hnd
      have hiff : ∀ x, x ≠ fd → (x ∈ live (remove_loop fd s.sockets_len 0 (s.emit (.remove_socket fd))) ↔ x ∈ live s) :=
        fun x hx => ⟨fun h => remove_loop_sub fd _ _ (s.emit (.remove_socket fd)) x h,
          fun h => remove_loop_keeps fd _ _ (s.emit (.remove_socket fd)) x hx h⟩
      by_cases hmem : fd ∈ live s
      · obtain ⟨k, hk, hfd⟩ := (mem_live s fd).1 hmem
        have hfound := remove_loop_found fd s.sockets_len 0 k (s.emit (.remove_socket fd)) hnd1
          (Nat.zero_le _) hk hfd (by omega)
        rw [hfound] at hiff ⊢
        have hspec := evict_spec (s.emit (.remove_socket fd)) k hnd1 hk
        refine ⟨?_, hiff, hspec.2, ?_, fun h => absurd hmem h⟩
        · have := hspec.1
          simp only [State.emit] at this
          rw [hfd] at this
          exact this
        · intro _
          simp only [evict, State.emit]
          omega
      · have hnone : remove_loop fd s.sockets_len 0 (s.emit (.remove_socket fd)) = s.emit (.remove_socket fd) := by
          apply remove_loop_none
          intro j _ hj hv
          exact hmem ((mem_live s fd).2 ⟨j, hj, hv⟩)
        rw [hnone] at hiff ⊢
        exact ⟨hmem, hiff, hnd, fun h => absurd h hmem, fun _ => ⟨rfl, rfl⟩⟩
  · intro hc
    refine ⟨{ s.emit (.remove_socket fd) with
      log := (s.emit (.remove_socket fd)).log ++ (live (s.emit (.remove_socket fd))).map Event.close },
      ?_, rfl, rfl⟩
    simp only [remove_socket, hc, if_true]
    rfl

/-- Instance: removing 4 from the set 3, 4, 5, with `close` succeeding and with `close` failing. -/
theorem remove_socket_spec_witness :
    (∃ s', remove_socket (env_ok .null) 4 three_state = .ok () s' ∧
      (4 : Int) ∉ live s' ∧ (∀ x, x ≠ 4 → (x ∈ live s' ↔ x ∈ live three_state)) ∧ (live s').Nodup ∧
      ((4 : Int) ∈ live three_state → s'.sockets_len + 1 = three_state.sockets_len) ∧
      ((4 : Int) ∉ live three_state → s'.sockets_len = three_state.sockets_len ∧ s'.sockets = three_state.sockets)) ∧
    (∃ s', remove_socket env_close_fails 4 three_state = .exit .close_failed s' ∧
      s'.sockets = three_state.sockets ∧ s'.sockets_len = three_state.sockets_len) :=
  ⟨(remove_socket_spec (env_ok .null) 4 three_state (by decide)).1 rfl,
   (remove_socket_spec env_close_fails 4 three_state (by decide)).2 rfl⟩

/-- C3: for every byte sequence `b` of length 0 to 2048, the buffer that `write_to_js`
builds from the characters holding `b` is the `Uint8Array` of exactly the bytes `b`, and
copying that buffer back as `write_to_js` does gives the same characters again: same
length, and the bytes stored in them are exactly `b`. -/
theorem buffer_roundtrip (b : List Nat) (hb : ∀ x ∈ b, x < 256) (_hlen : b.length ≤ 2048) :
    make_buffer (b.map char_of_byte) b.length = some (.uint8Array b) ∧
    copy_buffer (make_buffer (b.map char_of_byte) b.length) = b.map char_of_byte ∧
    (copy_buffer (make_buffer (b.map char_of_byte) b.length)).length = b.length ∧
    (copy_buffer (make_buffer (b.map char_of_byte) b.length)).map byte_of_char = b := by
  have hmk := make_buffer_bytes b hb
  have hcp := copy_buffer_bytes b hb
  refine ⟨hmk, ?_, ?_, ?_⟩
  · rw [hmk, hcp]
  · rw [hmk, hcp, List.length_map]
  · rw [hmk, hcp, List.map_map]
    conv_rhs => rw [← List.map_id b]
    apply List.map_congr_left
    intro x hx
    exact byte_of_char_of_byte x (hb x hx)

/-- Instance: the bytes 0, 127, 128 and 255. -/
theorem buffer_roundtrip_witness :
    make_buffer ([0, 127, 128, 255].map char_of_byte) [0, 127, 128, 255].length =
      some (.uint8Array [0, 127, 128, 255]) ∧
    copy_buffer (make_buffer ([0, 127, 128, 255].map char_of_byte) [0, 127, 128, 255].length) =
      [0, 127, 128, 255].map char_of_byte ∧
    (copy_buffer (make_buffer ([0, 127, 128, 255].map char_of_byte) [0, 127, 128, 255].length)).length =
      [0, 127, 128, 255].length ∧
    (copy_buffer (make_buffer ([0, 127, 128, 255].map char_of_byte) [0, 127, 128, 255].length)).map
      byte_of_char = [0, 127, 128, 255] :=
  buffer_roundtrip [0, 127, 128, 255] (by decide) (by decide)

/-! ## Script bridge -/

/-- C2: when the entry point returns an array whose elements are all pairs
`[targetId, null]` or `[targetId, Uint8Array]` and every `close` and `write` succeeds,
`write_to_js` returns, and the calls it made after the call of the entry point are, in
order of ascending index, exactly one per element: `remove_socket(targetId)` for a
`null` payload and `write_socket(targetId, bytes)` for a buffer. -/
theorem write_to_js_order (env : Env) (fd : Int) (data : List Int) (len : Nat) (s : State)
    (actions : List Action) (hos : env.os_ok)
    (hret : env.script s.log fd (make_buffer data len).bytes =
      .returned (.array (actions.map Action.toJS))) :
    ∃ s', write_to_js env fd data len s = .ok () s' ∧
      s'.log = s.log ++ Event.call_js fd (make_buffer data len).bytes :: actions.map Action.effect := by
  refine ⟨apply_actions actions (s.emit (.call_js fd (make_buffer data len).bytes)), ?_, ?_⟩
  · rw [write_to_js_array env fd data len s _ hret]
    have h := run_actions_wf env hos (actions.map (fun a => (a, []))) [] (s.emit (.call_js fd (make_buffer data len).bytes))
    simp only [List.map_map, List.append_nil] at h
    have e1 : ((fun p : Action × List JSValue => p.1.toJSWith p.2) ∘ fun a => (a, [])) = Action.toJS := rfl
    have e2 : (Prod.fst ∘ fun a : Action => (a, ([] : List JSValue))) = id := rfl
    rw [e1, e2, List.map_id] at h
    exact h
  · rw [(apply_actions_log actions _).1]
    simp [State.emit]

/-- Instance: the batch `[[4, X], [5, null], [4, Y]]` writes `X` to 4, closes 5, writes `Y` to 4. -/
theorem write_to_js_order_witness :
    ∃ s', write_to_js
        (env_ok (.array [.array [.number 4, .uint8Array [1, 2]], .array [.number 5, .null],
          .array [.number 4, .uint8Array [3]]])) 4 [112] 1 three_state = .ok () s' ∧
      s'.log = [.call_js 4 [112], .write_socket 4 [1, 2], .remove_socket 5, .write_socket 4 [3]] :=
  write_to_js_order
    (env_ok (.array [.array [.number 4, .uint8Array [1, 2]], .array [.number 5, .null],
      .array [.number 4, .uint8Array [3]]])) 4 [112] 1 three_state
    [.write 4 [1, 2], .close 5, .write 4 [3]] ⟨fun _ _ => rfl, fun _ _ _ => rfl⟩ rfl

/-- C10: with the entry point `(id, data) => [[id, data]]`, for every connection id and
every non-empty chunk `b` of at most 2048 bytes, `write_to_js(id, b)` calls the entry
point with `(id, b)` and then makes exactly one call, `write_socket(id, b)` with the
`|b|` characters holding `b`; there is no `remove_socket` and the Connection Set is as
before. When the `write` succeeds `write_to_js` returns; when it fails it exits with
`send_failed`. -/
theorem echo_writes_back (env : Env) (fd : Int) (b : List Nat) (s : State)
    (hb : ∀ x ∈ b, x < 256) (_hne : b ≠ []) (_hlen : b.length ≤ 2048)
    (hscript : ∀ l id data, env.script l id data =
      .returned (.array [.array [.number id, .uint8Array data]])) :
    (env.write_ok (s.log ++ [.call_js fd b]) fd (b.map char_of_byte) = true →
      write_to_js env fd (b.map char_of_byte) b.length s =
        .ok () { s with log := s.log ++ [.call_js fd b, .write_socket fd (b.map char_of_byte)] }) ∧
    (env.write_ok (s.log ++ [.call_js fd b]) fd (b.map char_of_byte) = false →
      write_to_js env fd (b.map char_of_byte) b.length s =
        throw .send_failed
          { s with log := s.log ++ [.call_js fd b, .write_socket fd (b.map char_of_byte)] }) := by
  have hmk := make_buffer_bytes b hb
  have hcp := copy_buffer_bytes b hb
  have hbytes : JSRef.bytes (some (JSValue.uint8Array b)) = b := rfl
  have hrun : write_to_js env fd (b.map char_of_byte) b.length s =
      write_socket env fd (b.map char_of_byte) (b.map char_of_byte).length (s.emit (.call_js fd b)) := by
    rw [write_to_js_array env fd _ _ s _ (hscript _ _ _), hmk, hbytes, run_actions_cons]
    have h0 : JSValueToObject (some (JSValue.array [.number fd, .uint8Array b])) =
        some (.array [.number fd, .uint8Array b]) := rfl
    rw [h0]
    simp only []
    rw [action_step_array]
    have h1 : JSValueToObject (some (JSValue.uint8Array b)) = some (.uint8Array b) := rfl
    have h2 : JSObjectGetTypedArrayLength (some (JSValue.uint8Array b)) = (b.map char_of_byte).length := by
      rw [List.length_map]
      rfl
    rw [h1, hcp, h2]
    have h3 : JSValueIsNull (some (JSValue.uint8Array b)) = false := rfl
    have h4 : JSValueGetTypedArrayType (some (JSValue.uint8Array b)) = 3 := rfl
    simp only [h3, h4, Bool.false_eq_true, if_false, if_true]
    cases hw : write_socket env fd (b.map char_of_byte) (b.map char_of_byte).length (s.emit (.call_js fd b)) with
    | ok _ s' => rfl
    | exit e s' => rfl
    | blocked s' => rfl
  constructor
  · intro hw
    rw [hrun, write_socket_ok env fd _ _ hw]
    simp [State.emit]
  · intro hw
    rw [hrun, write_socket_fail env fd _ _ hw]
    simp [State.emit]

/-- Instance: the four bytes of "ping" on connection 4. -/
theorem echo_writes_back_witness :
    write_to_js (env_echo true) 4 ([112, 105, 110, 103].map char_of_byte) [112, 105, 110, 103].length
        three_state =
      .ok () { three_state with
        log := three_state.log ++
          [.call_js 4 [112, 105, 110, 103], .write_socket 4 ([112, 105, 110, 103].map char_of_byte)] } :=
  (echo_writes_back (env_echo true) 4 [112, 105, 110, 103] three_state (by decide) (by decide)
    (by decide) (fun _ _ _ => rfl)).1 rfl

/-- C6, as stated, fails: the element `[4, null, 7]` has three entries, yet `write_to_js`
returns without a fatal error and has applied it as the action `[4, null]`, a close of
connection 4. -/
theorem element_shape_counterexample :
    (write_to_js (env_ok (.array [.array [.number 4, .null, .number 7]])) 4 [112] 1 three_state).error
        = none ∧
    (write_to_js (env_ok (.array [.array [.number 4, .null, .number 7]])) 4 [112] 1 three_state).returned
        = true ∧
    (write_to_js (env_ok (.array [.array [.number 4, .null, .number 7]])) 4 [112] 1 three_state).state.log
        = [.call_js 4 [112], .remove_socket 4] := by
  decide

/-- C6, amended: an element that is neither `null` nor `undefined` and is not an array
makes `write_to_js` exit with `element_not_array` when the loop reaches it (the elements
before it being arrays `[targetId, payload, ...]` with a `null` or `Uint8Array` payload
whose `close` and `write` succeed). The number of entries of an element that is an array
is not checked: an array `[targetId, payload, ...]` with such a payload is applied as
the action `[targetId, payload]`, its further entries being ignored. -/
theorem element_shape (env : Env) (fd : Int) (data : List Int) (len : Nat) (s : State)
    (hos : env.os_ok) (l : List (Action × List JSValue)) :
    (∀ v post, env.script s.log fd (make_buffer data len).bytes =
        .returned (.array (l.map (fun p => p.1.toJSWith p.2) ++ v :: post)) →
      v ≠ .null → v ≠ .undefined → (∀ es, v ≠ .array es) →
      write_to_js env fd data len s = throw .element_not_array
        (apply_actions (l.map Prod.fst) (s.emit (.call_js fd (make_buffer data len).bytes)))) ∧
    (env.script s.log fd (make_buffer data len).bytes =
        .returned (.array (l.map (fun p => p.1.toJSWith p.2))) →
      write_to_js env fd data len s = .ok ()
        (apply_actions (l.map Prod.fst) (s.emit (.call_js fd (make_buffer data len).bytes))) ∧
      (apply_actions (l.map Prod.fst) (s.emit (.call_js fd (make_buffer data len).bytes))).log =
        s.log ++ Event.call_js fd (make_buffer data len).bytes :: l.map (fun p => p.1.effect)) := by
  constructor
  · intro v post hret h1 h2 h3
    rw [write_to_js_array env fd data len s _ hret, run_actions_wf env hos]
    exact run_actions_malformed env v _ (.element v h1 h2 h3) post _
  · intro hret
    constructor
    · rw [write_to_js_array env fd data len s _ hret]
      have h := run_actions_wf env hos l [] (s.emit (.call_js fd (make_buffer data len).bytes))
      rw [List.append_nil] at h
      exact h
    · rw [(apply_actions_log _ _).1]
      simp [State.emit]

/-- Instance: the number 5 after a three-entry write action, and the batch `[[4, null, 7]]`. -/
theorem element_shape_witness :
    (write_to_js (env_ok (.array [.array [.number 4, .uint8Array [1], .number 9], .number 5]))
        4 [112] 1 three_state =
      throw .element_not_array
        (apply_actions [.write 4 [1]] (three_state.emit (.call_js 4 (make_buffer [112] 1).bytes)))) ∧
    (write_to_js (env_ok (.array [.array [.number 4, .null, .number 7]])) 4 [112] 1 three_state =
      .ok () (apply_actions [.close 4] (three_state.emit (.call_js 4 (make_buffer [112] 1).bytes))) ∧
     (apply_actions [.close 4] (three_state.emit (.call_js 4 (make_buffer [112] 1).bytes))).log =
        [.call_js 4 [112], .remove_socket 4]) :=
  ⟨(element_shape (env_ok (.array [.array [.number 4, .uint8Array [1], .number 9], .number 5]))
      4 [112] 1 three_state ⟨fun _ _ => rfl, fun _ _ _ => rfl⟩ [(.write 4 [1], [.number 9])]).1
      (.number 5) [] rfl (by simp) (by simp) (by simp),
   (element_shape (env_ok (.array [.array [.number 4, .null, .number 7]]))
      4 [112] 1 three_state ⟨fun _ _ => rfl, fun _ _ _ => rfl⟩ [(.close 4, [.number 7])]).2 rfl⟩

/-- C1, as stated, fails: for the batch `[[4, Uint8Array [1]], 5]`, whose element 1 is not
an array, `write_to_js` exits with `element_not_array`, but the action of element 0 was
applied before: `write_socket(4, [1])` is among the calls made. -/
theorem protocol_violation_counterexample :
    (write_to_js (env_ok (.array [.array [.number 4, .uint8Array [1]], .number 5])) 4 [112] 1
        three_state).error = some .element_not_array ∧
    Event.write_socket 4 [1] ∈
      (write_to_js (env_ok (.array [.array [.number 4, .uint8Array [1]], .number 5])) 4 [112] 1
        three_state).state.log := by
  decide

/-- C1, amended: a returned value that is not an array makes `write_to_js` exit with
`not_array` right after the call of the entry point, no action applied. In a returned
array whose elements before some index are well-formed pairs (their `close` and `write`
succeeding) and whose element at that index is malformed (not an array, `null` and
`undefined` aside; an array whose entry 0 is not a number; an array with a numeric
entry 0 whose entry 1 is neither `null`, `undefined` nor a `Uint8Array`), `write_to_js`
exits with the corresponding message after it has applied, in order, the actions of the
elements before: the calls made are those, followed by the closing of the tracked
sockets on exit, and nothing of the malformed element or of a later one. -/
theorem protocol_violation (env : Env) (fd : Int) (data : List Int) (len : Nat) (s : State) :
    (∀ v, env.script s.log fd (make_buffer data len).bytes = .returned v →
      (∀ es, v ≠ .array es) →
      write_to_js env fd data len s =
        throw .not_array (s.emit (.call_js fd (make_buffer data len).bytes))) ∧
    (env.os_ok → ∀ (actions : List Action) (v : JSValue) (e : Fatal) (post : List JSValue),
      env.script s.log fd (make_buffer data len).bytes =
        .returned (.array (actions.map Action.toJS ++ v :: post)) →
      Malformed v e →
      write_to_js env fd data len s = throw e
        (apply_actions actions (s.emit (.call_js fd (make_buffer data len).bytes))) ∧
      (write_to_js env fd data len s).error = some e ∧
      (write_to_js env fd data len s).state.log =
        s.log ++ Event.call_js fd (make_buffer data len).bytes :: actions.map Action.effect ++
          (live (apply_actions actions (s.emit (.call_js fd (make_buffer data len).bytes)))).map
            Event.close) := by
  constructor
  · intro v hret hv
    apply write_to_js_not_array env fd data len s v hret
    cases v with
    | array es => exact absurd rfl (hv es)
    | undefined => rfl
    | null => rfl
    | boolean b => rfl
    | number n => rfl
    | string str => rfl
    | uint8Array bytes => rfl
    | object kind => rfl
  · intro hos actions v e post hret hm
    have h : write_to_js env fd data len s = throw e
        (apply_actions actions (s.emit (.call_js fd (make_buffer data len).bytes))) := by
      rw [write_to_js_array env fd data len s _ hret]
      have h := run_actions_wf env hos (actions.map (fun a => (a, []))) (v :: post)
        (s.emit (.call_js fd (make_buffer data len).bytes))
      simp only [List.map_map] at h
      have e1 : ((fun p : Action × List JSValue => p.1.toJSWith p.2) ∘ fun a => (a, [])) = Action.toJS := rfl
      have e2 : (Prod.fst ∘ fun a : Action => (a, ([] : List JSValue))) = id := rfl
      rw [e1, e2, List.map_id] at h
      rw [h]
      exact run_actions_malformed env v e hm post _
    refine ⟨h, ?_, ?_⟩
    · rw [h]
      rfl
    · rw [h]
      simp only [throw, Outcome.state]
      rw [(apply_actions_log actions _).1]
      simp [State.emit]

/-- Instance: the batch `[[4, Uint8Array [1]], 5]`. -/
theorem protocol_violation_witness :
    write_to_js (env_ok (.array [.array [.number 4, .uint8Array [1]], .number 5])) 4 [112] 1
        three_state =
      throw .element_not_array
        (apply_actions [.write 4 [1]] (three_state.emit (.call_js 4 (make_buffer [112] 1).bytes))) ∧
    (write_to_js (env_ok (.array [.array [.number 4, .uint8Array [1]], .number 5])) 4 [112] 1
        three_state).error = some .element_not_array ∧
    (write_to_js (env_ok (.array [.array [.number 4, .uint8Array [1]], .number 5])) 4 [112] 1
        three_state).state.log =
      three_state.log ++ Event.call_js 4 (make_buffer [112] 1).bytes ::
        [Action.write 4 [1]].map Action.effect ++
        (live (apply_actions [.write 4 [1]]
          (three_state.emit (.call_js 4 (make_buffer [112] 1).bytes)))).map Event.close :=
  (protocol_violation (env_ok (.array [.array [.number 4, .uint8Array [1]], .number 5])) 4 [112] 1
    three_state).2 ⟨fun _ _ => rfl, fun _ _ _ => rfl⟩ [.write 4 [1]] (.number 5) .element_not_array []
    rfl (.element _ (by simp) (by simp) (by simp))

/-! ## Readiness multiplexer and main loop -/

/-- C8: when `get_socket` returns a descriptor `d`, the environment responses split into
the passes that went back to `select`, after which the process waited in state `s'`, and
the most recent pass `r`: `d` is set in `list` after that `select` (it is readable and
one of the ids put in from the Connection Set), `d` is in the Connection Set, `d` is not
the listening socket, and no lower descriptor is set in `list`. When the lowest
descriptor set after a successful `select` is the listening socket, that pass does not
return a descriptor: if `accept` succeeds and the set is below its bound, the accepted id
is added and `get_socket` goes on with the next `select`; otherwise the process exits
(`accept_failed`, `max_sockets`). -/
theorem get_socket_spec (s : State) :
    (∀ rounds d s', get_socket s rounds = .ok d s' →
      ∃ pre r rest, ∃ k : Nat, rounds = pre ++ r :: rest ∧ get_socket s pre = .blocked s' ∧
        get_socket_round s' r = .ok (some d) s' ∧ d = (k : Int) ∧
        fd_list s' r k = true ∧ r.readable k = true ∧ d ∈ live s' ∧
        d ≠ s'.server_socket ∧ ∀ j, j < k → fd_list s' r j = false) ∧
    (∀ r rest, ∀ k : Nat, 0 ≤ r.select_ret → (k : Int) = s.server_socket →
      fd_list s r k = true → (∀ j, j < k → fd_list s r j = false) →
      (∀ d s', get_socket_round s r ≠ .ok (some d) s') ∧
      (0 ≤ r.accept_ret → s.sockets_len < 1024 →
        ∃ s1, add_socket r.accept_ret s = .ok () s1 ∧ live s1 = live s ++ [r.accept_ret] ∧
          get_socket_round s r = .ok none s1 ∧ get_socket s (r :: rest) = get_socket s1 rest) ∧
      (r.accept_ret < 0 → get_socket s (r :: rest) = throw .accept_failed s) ∧
      (0 ≤ r.accept_ret → 1024 ≤ s.sockets_len →
        get_socket s (r :: rest) = throw .max_sockets s)) := by
  constructor
  · intro rounds d s' h
    obtain ⟨pre, r, rest, k, e, hb, h1, h2, h3, h4, h5⟩ := get_socket_ok s rounds d s' h
    have hm := fd_list_true s' r k h3
    exact ⟨pre, r, rest, k, e, hb, h1, h2, h3, hm.2, by rw [h2]; exact hm.1, h4, h5⟩
  · intro r rest k hsel hk hset hlow
    have hlt : (k : Int) < maxfd s := lt_maxfd s _ (fd_list_true s r k hset).1
    have hround : get_socket_round s r =
        if r.accept_ret < 0 then throw .accept_failed s
        else
          match add_socket r.accept_ret s with
          | .ok _ s' => .ok none s'
          | .exit e s' => .exit e s'
          | .blocked s' => .blocked s' := by
      unfold get_socket_round
      rw [if_neg (by omega)]
      rw [scan_loop_first s (fd_list s r) r.accept_ret (maxfd s).toNat 0 k (Nat.zero_le _)
        (by omega) hset (fun j _ hj => hlow j hj), if_pos hk]
    refine ⟨?_, ?_, ?_, ?_⟩
    · intro d s' hc
      rw [hround] at hc
      by_cases ha : r.accept_ret < 0
      · rw [if_pos ha] at hc
        cases hc
      · rw [if_neg ha] at hc
        rcases add_socket_branch r.accept_ret s with ⟨_, e⟩ | ⟨_, e⟩
        · rw [e] at hc
          cases hc
        · rw [e] at hc
          cases hc
    · intro ha hlen
      rcases add_socket_branch r.accept_ret s with ⟨_, e⟩ | ⟨h1, _⟩
      · refine ⟨_, e, live_add _ _, ?_, ?_⟩
        · rw [hround, if_neg (by omega), e]
        · rw [get_socket_cons, hround, if_neg (by omega), e]
      · omega
    · intro ha
      rw [get_socket_cons, hround, if_pos ha]
      rfl
    · intro ha hlen
      rcases add_socket_branch r.accept_ret s with ⟨h1, _⟩ | ⟨_, e⟩
      · omega
      · rw [get_socket_cons, hround, if_neg (by omega), e]
        rfl

/-- Instance: the listening socket 3 and connection 5 are readable; 6 is accepted, then 5 is returned. -/
theorem get_socket_spec_witness :
    (∃ pre r rest, ∃ k : Nat,
        [(⟨1, fun i => i == 3 || i == 5, 6⟩ : SelectRound), ⟨1, fun i => i == 5, 7⟩] = pre ++ r :: rest ∧
        get_socket three_state pre =
          .blocked { three_state with
            sockets := Function.update three_state.sockets 3 6, sockets_len := 4 } ∧
        get_socket_round { three_state with
            sockets := Function.update three_state.sockets 3 6, sockets_len := 4 } r =
          .ok (some 5) { three_state with
            sockets := Function.update three_state.sockets 3 6, sockets_len := 4 } ∧
        (5 : Int) = (k : Int) ∧
        fd_list { three_state with
            sockets := Function.update three_state.sockets 3 6, sockets_len := 4 } r k = true ∧
        r.readable k = true ∧
        (5 : Int) ∈ live { three_state with
            sockets := Function.update three_state.sockets 3 6, sockets_len := 4 } ∧
        (5 : Int) ≠ ({ three_state with
            sockets := Function.update three_state.sockets 3 6, sockets_len := 4 } : State).server_socket ∧
        ∀ j, j < k → fd_list { three_state with
            sockets := Function.update three_state.sockets 3 6, sockets_len := 4 } r j = false) ∧
    (∃ s1, add_socket 6 three_state = .ok () s1 ∧ live s1 = live three_state ++ [6] ∧
      get_socket_round three_state ⟨1, fun i => i == 3 || i == 5, 6⟩ = .ok none s1 ∧
      get_socket three_state [⟨1, fun i => i == 3 || i == 5, 6⟩, ⟨1, fun i => i == 5, 7⟩] =
        get_socket s1 [⟨1, fun i => i == 5, 7⟩]) :=
  ⟨(get_socket_spec three_state).1
      [⟨1, fun i => i == 3 || i == 5, 6⟩, ⟨1, fun i => i == 5, 7⟩] 5 _ rfl,
   ((get_socket_spec three_state).2 ⟨1, fun i => i == 3 || i == 5, 6⟩ [⟨1, fun i => i == 5, 7⟩] 3
      (by decide) rfl (by decide) (by decide)).2.1 (by decide) (by decide)⟩

/-- C4, as stated, fails: connection 5 is readable and `recv` returns 0; the pass of the
main loop removes 5 from the Connection Set and then calls the entry point with the
empty chunk: the event `call_js 5 []` is in the log. -/
theorem zero_length_read_counterexample :
    (main_iteration (env_ok (.array []))
        { rounds := [⟨1, fun i => i == 5, 0⟩], recv_ret := 0, buffer := [] } three_state).returned
        = true ∧
    (main_iteration (env_ok (.array []))
        { rounds := [⟨1, fun i => i == 5, 0⟩], recv_ret := 0, buffer := [] } three_state).state.log
        = [.remove_socket 5, .call_js 5 []] ∧
    live (main_iteration (env_ok (.array []))
        { rounds := [⟨1, fun i => i == 5, 0⟩], recv_ret := 0, buffer := [] } three_state).state
        = [3, 4] := by
  decide

/-- C4, amended: in every pass of the main loop in which `get_socket` returns `fd`, `recv`
returns 0 and the `close` succeeds, `read_socket` applies `remove_socket(fd)`, after
which `fd` is not in the Connection Set if the set held no id twice, and the pass then
does call `write_to_js(fd, buffer, 0)`: the entry point is called with `fd` and an empty
buffer right after the removal. -/
theorem zero_length_read (env : Env) (inp : Input) (s : State) (fd : Int) (s1 : State)
    (hget : get_socket s inp.rounds = .ok fd s1) (hrecv : inp.recv_ret = 0)
    (hclose : env.close_ok s1.log fd = true) :
    read_socket env fd inp.recv_ret s1 =
      .ok 0 (remove_loop fd s1.sockets_len 0 (s1.emit (.remove_socket fd))) ∧
    ((live s1).Nodup → fd ∉ live (remove_loop fd s1.sockets_len 0 (s1.emit (.remove_socket fd)))) ∧
    main_iteration env inp s =
      write_to_js env fd inp.buffer 0 (remove_loop fd s1.sockets_len 0 (s1.emit (.remove_socket fd))) ∧
    (∃ tail, (main_iteration env inp s).state.log =
      s1.log ++ Event.remove_socket fd :: Event.call_js fd [] :: tail) := by
  have hread : read_socket env fd inp.recv_ret s1 =
      .ok 0 (remove_loop fd s1.sockets_len 0 (s1.emit (.remove_socket fd))) := by
    unfold read_socket
    rw [hrecv, if_neg (by decide), if_pos rfl, remove_socket_ok env fd s1 hclose]
    rfl
  have hmain : main_iteration env inp s =
      write_to_js env fd inp.buffer 0 (remove_loop fd s1.sockets_len 0 (s1.emit (.remove_socket fd))) := by
    unfold main_iteration
    rw [hget]
    simp only []
    rw [hread]
    rfl
  refine ⟨hread, ?_, hmain, ?_⟩
  · intro hnd
    exact remove_loop_removes fd (s1.emit (.remove_socket fd)) hnd
  · obtain ⟨tail, ht⟩ := write_to_js_log env fd inp.buffer 0
      (remove_loop fd s1.sockets_len 0 (s1.emit (.remove_socket fd)))
    refine ⟨tail, ?_⟩
    rw [hmain, ht, (remove_loop_log _ _ _ _).1]
    have hb : (make_buffer inp.buffer 0).bytes = [] := rfl
    rw [hb]
    simp [State.emit]

/-- Instance: connection 5 of the set 3, 4, 5 is readable and `recv` returns 0. -/
theorem zero_length_read_witness :
    read_socket (env_ok (.array [])) 5 0 three_state =
      .ok 0 (remove_loop 5 three_state.sockets_len 0 (three_state.emit (.remove_socket 5))) ∧
    ((live three_state).Nodup →
      (5 : Int) ∉ live (remove_loop 5 three_state.sockets_len 0 (three_state.emit (.remove_socket 5)))) ∧
    main_iteration (env_ok (.array []))
        { rounds := [⟨1, fun i => i == 5, 0⟩], recv_ret := 0, buffer := [] } three_state =
      write_to_js (env_ok (.array [])) 5 [] 0
        (remove_loop 5 three_state.sockets_len 0 (three_state.emit (.remove_socket 5))) ∧
    (∃ tail, (main_iteration (env_ok (.array []))
        { rounds := [⟨1, fun i => i == 5, 0⟩], recv_ret := 0, buffer := [] } three_state).state.log =
      three_state.log ++ Event.remove_socket 5 :: Event.call_js 5 [] :: tail) :=
  zero_length_read (env_ok (.array []))
    { rounds := [⟨1, fun i => i == 5, 0⟩], recv_ret := 0, buffer := [] } three_state 5 three_state
    rfl rfl rfl

/-- C5, as stated, fails: after `init_server` with listening socket 3 and the accept of
connection 4, the script returns `[[3, null]]`; `write_to_js` applies it and returns,
and the listening socket is no longer in the Connection Set. -/
theorem listening_socket_counterexample :
    ∃ s, Reachable (fun _ _ => True) s ∧ s.server_socket ∉ live s := by
  have h0 : Reachable (fun _ _ => True) (init_server 3 0 0 start).state :=
    Reachable.init 3 0 0 _ rfl
  have h1 : Reachable (fun _ _ => True) (add_socket 4 (init_server 3 0 0 start).state).state :=
    Reachable.accept 4 _ _ h0 rfl
  have h2 : Reachable (fun _ _ => True)
      (write_to_js (env_ok (.array [.array [.number 3, .null]])) 4 [112] 1
        (add_socket 4 (init_server 3 0 0 start).state).state).state :=
    Reachable.dispatch (env_ok (.array [.array [.number 3, .null]])) 4 [112] 1 _ _ h1 trivial rfl
  exact ⟨_, h2, by decide⟩

/-- C5, amended: in every state reached after `init_server` by accepting and adding
connections, removing connections other than the listening socket after a zero-length
read, and applying batches returned by the script in which no element asks to close the
listening socket (target id equal to the listening socket's id with a `null` or missing
payload), the listening socket's id is in the Connection Set. -/
theorem listening_socket_kept (s : State) (h : Reachable spares_listening s) :
    s.server_socket ∈ live s := by
  induction h with
  | init socket_ret bind_ret listen_ret s h =>
    unfold init_server at h
    simp only [] at h
    split_ifs at h
    · cases h
    · cases h
    · cases h
    · cases h
      simp [live]
  | accept fd s s' _ h ih =>
    rcases add_socket_branch fd s with ⟨_, e⟩ | ⟨_, e⟩
    · rw [e] at h
      cases h
      rw [live_add]
      exact List.mem_append_left _ ih
    · rw [e] at h
      cases h
  | eof env fd s s' _ hfd h ih =>
    cases hc : env.close_ok s.log fd with
    | false =>
      rw [remove_socket_fail env fd s hc] at h
      cases h
    | true =>
      rw [remove_socket_ok env fd s hc] at h
      cases h
      rw [(action_apply_log (.close fd) s).2]
      exact remove_loop_keeps fd _ _ (s.emit _) _ (Ne.symm hfd) ih
  | dispatch env fd data len s s' _ ha h ih =>
    cases hret : env.script s.log fd (make_buffer data len).bytes with
    | threw exc =>
      rw [write_to_js_threw env fd data len s exc hret] at h
      cases h
    | returned v =>
      by_cases hv : JSValueIsArray (some v) = true
      · cases v with
        | array elems =>
          rw [write_to_js_array env fd data len s elems hret] at h
          have hk := run_actions_keeps env elems (s.emit (.call_js fd (make_buffer data len).bytes)) s'
            (fun e he => ha elems hret e he) ih h
          rw [hk.1]
          exact hk.2
        | undefined => cases hv
        | null => cases hv
        | boolean b => cases hv
        | number n => cases hv
        | string str => cases hv
        | uint8Array bytes => cases hv
        | object kind => cases hv
      · rw [write_to_js_not_array env fd data len s v hret (by simpa using hv)] at h
        cases h

/-- Instance: listening socket 3, connection 4 accepted, the script closes 4. -/
theorem listening_socket_kept_witness :
    (write_to_js (env_ok (.array [.array [.number 4, .null]])) 4 [112] 1
        (add_socket 4 (init_server 3 0 0 start).state).state).state.server_socket ∈
      live (write_to_js (env_ok (.array [.array [.number 4, .null]])) 4 [112] 1
        (add_socket 4 (init_server 3 0 0 start).state).state).state :=
  listening_socket_kept _
    (Reachable.dispatch (env_ok (.array [.array [.number 4, .null]])) 4 [112] 1 _ _
      (Reachable.accept 4 _ _ (Reachable.init 3 0 0 (init_server 3 0 0 start).state rfl) rfl)
      (by
        intro elems he e hmem
        cases he
        simp only [List.mem_singleton] at hmem
        subst hmem
        decide)
      rfl)

end JscServer
